import Mathlib

/-!
Verification development for the coa-rag repository.

Shallow embedding of the core logic of `src/coa.py`, `src/extract.py` and
`src/router.py`.  External collaborators (the OpenAI completion service,
`json.loads`, the file-search call) are modelled as oracle parameters;
everything written in the repository itself is translated structurally.
-/

namespace CoaRag

/-! ## Python-style string utilities

Helpers mirroring the Python string primitives the source uses.
Strings are treated as their character lists (`String.data`); the repository
only ever handles ASCII questions/names so `Char.toLower`, `Char.isUpper`,
`Char.isWhitespace` coincide with Python `str.lower` / `str.isupper` /
whitespace splitting on the inputs of interest. -/

/-- Python `s.lower()`. -/
def pyLower (s : String) : String := String.mk (s.data.map Char.toLower)

/-- Python `s.strip()` (strip whitespace from both ends). -/
def pyStrip (s : String) : String :=
  String.mk (((s.data.dropWhile Char.isWhitespace).reverse.dropWhile Char.isWhitespace).reverse)

/-- Python `s[:n]` on a string (first `n` characters). -/
def strTake (s : String) (n : Nat) : String := String.mk (s.data.take n)

/-- Check that the second list is an initial segment of the first. -/
def listStarts : List Char → List Char → Bool
  | _, [] => true
  | [], _ :: _ => false
  | a :: as, b :: bs => a == b && listStarts as bs

/-- Substring containment on character lists (Python `needle in hay`). -/
def containsSub : List Char → List Char → Bool
  | hay, needle =>
    if listStarts hay needle then true
    else match hay with
      | [] => false
      | _ :: t => containsSub t needle

/-- Python `sub in s` for strings. -/
def pyContains (s sub : String) : Bool := containsSub s.data sub.data

/-- Python `s.startswith(p)`. -/
def strStarts (s p : String) : Bool := listStarts s.data p.data

/-- Python `str.split()` with no argument: split on whitespace runs, no empties. -/
def splitWsAux : List Char → List Char → List String
  | [], acc => if acc.isEmpty then [] else [String.mk acc.reverse]
  | c :: cs, acc =>
    if c.isWhitespace then
      (if acc.isEmpty then splitWsAux cs [] else String.mk acc.reverse :: splitWsAux cs [])
    else splitWsAux cs (c :: acc)

/-- Python `s.split()`. -/
def splitWs (s : String) : List String := splitWsAux s.data []

/-- A single-quote character, and the string holding it. -/
def sqChar : Char := Char.ofNat 39

/-- The one-character string containing a single quote. -/
def sqStr : String := String.singleton sqChar

/-- Fuelled helper for `dedupFirst` (structural recursion so that it reduces
inside the kernel; the fuel is always sufficient because filtering never
lengthens the list). -/
def dedupFirstF : Nat → List String → List String
  | 0, _ => []
  | _, [] => []
  | fuel + 1, x :: xs => x :: dedupFirstF fuel (xs.filter (fun y => y != x))

/-- Deduplicate keeping the first occurrence of each element.  Used to model
Python `set` contents materialised back into a list: Python's `set` iteration
order is unspecified, we fix first-occurrence order as the canonical model.
Cardinality (`len`) and membership agree with Python exactly. -/
def dedupFirst (l : List String) : List String := dedupFirstF l.length l

/-- Concatenation of a list of strings (character-level append). -/
def concatStrings (l : List String) : String := String.mk ((l.map String.data).flatten)

/-! ## JSON values (`json.loads` results) -/

/-- JSON value, the shape `json.loads` can produce. -/
inductive JValue : Type where
  | jnull : JValue
  | jbool : Bool → JValue
  | jnum : Int → JValue
  | jstr : String → JValue
  | jarr : List JValue → JValue
  | jobj : List (String × JValue) → JValue

/-- Python `v != s` where `s` is a `str`: any non-string JSON value differs
from a string; strings compare by content. -/
def jvNeStr : JValue → String → Bool
  | .jstr a, b => a != b
  | _, _ => true

/-- Python dict lookup `d.get(k)` on a JSON object (association list; keys of a
`json.loads` result are unique, first match returned). -/
def jvGet (kvs : List (String × JValue)) (k : String) : Option JValue :=
  (kvs.find? (fun kv => kv.1 == k)).map (fun kv => kv.2)

/-- Python dict assignment `d[k] = v`: overwrite in place, else append. -/
def jvSetKey : List (String × JValue) → String → JValue → List (String × JValue)
  | [], k, v => [(k, v)]
  | (k1, v1) :: rest, k, v =>
    if k1 == k then (k1, v) :: rest else (k1, v1) :: jvSetKey rest k v

/-- Python `str(v)` for a JSON value.  Exact for strings, numbers, booleans and
`None` (the cases the repository can meet); containers get a simple
bracketed rendering standing in for Python `repr`. -/
def pyStr : JValue → String
  | .jnull => "None"
  | .jbool true => "True"
  | .jbool false => "False"
  | .jnum n => toString n
  | .jstr s => s
  | .jarr xs => "[" ++ String.intercalate ", " (xs.attach.map (fun x => pyStr x.1)) ++ "]"
  | .jobj kvs => "\x7b" ++ String.intercalate ", " (kvs.attach.map (fun kv => kv.1.1 ++ ": " ++ pyStr kv.1.2)) ++ "\x7d"
decreasing_by
  · have := List.sizeOf_lt_of_mem x.2; simp at this ⊢; omega
  · rcases kv with ⟨⟨k, v⟩, hmem⟩
    have := List.sizeOf_lt_of_mem hmem
    simp at this ⊢
    omega

/-- Serialisation used for `json.dumps(worker_outputs, indent=2)` when the
orchestrator builds the manager input.  The `indent=2` pretty-printing is
abstracted to a compact rendering; no claim inspects this text. -/
def jsonDumps : JValue → String
  | .jnull => "null"
  | .jbool true => "true"
  | .jbool false => "false"
  | .jnum n => toString n
  | .jstr s => "\"" ++ s ++ "\""
  | .jarr xs => "[" ++ String.intercalate ", " (xs.attach.map (fun x => jsonDumps x.1)) ++ "]"
  | .jobj kvs => "\x7b" ++ String.intercalate ", " (kvs.attach.map (fun kv => "\"" ++ kv.1.1 ++ "\": " ++ jsonDumps kv.1.2)) ++ "\x7d"
decreasing_by
  · have := List.sizeOf_lt_of_mem x.2; simp at this ⊢; omega
  · rcases kv with ⟨⟨k, v⟩, hmem⟩
    have := List.sizeOf_lt_of_mem hmem
    simp at this ⊢
    omega

/-! ## Data model of `src/extract.py`

The extraction graph is a JSON document whose items are dicts produced by
`extract_from_document`.  Those dicts always carry the keys the code reads
(`.get` with defaults makes absent keys behave as the defaults), so entities,
claims and events are modelled as records; the dynamically-typed `source`
field of an entity (string, or list of strings once several documents
contribute) is a dedicated sum type, and `key_facts` entries (which the code
probes with `isinstance(f, dict)`) are a sum of plain strings and dicts. -/

/-- Source attribution of an entity: a document name, or a list of document
names once several documents contributed (see `merge_extraction`). -/
inductive SrcV : Type where
  | s (v : String)
  | l (vs : List String)
deriving DecidableEq, Repr

/-- Python truthiness of a source value (empty string / empty list are falsy). -/
def srcTruthy : SrcV → Bool
  | .s v => v != ""
  | .l vs => !vs.isEmpty

/-- Python `e.get("source") != doc_name` where `doc_name` is a string: a list
never equals a string. -/
def srcNeqStr (sv : SrcV) (doc : String) : Bool :=
  match sv with
  | .s v => v != doc
  | .l _ => true

/-- An entity record (`{name, type, description, mentions, source}`). -/
structure Entity : Type where
  name : String
  /-- the `"type"` key of the Python dict -/
  etype : String
  description : String
  mentions : List String
  source : SrcV
deriving DecidableEq, Repr

/-- A claim record (`{subject, claim, quote, context, source}`). -/
structure ClaimR : Type where
  subject : String
  claim : String
  quote : String
  context : String
  source : String
deriving DecidableEq, Repr

/-- An event record (`{date, description, people_involved, location, source}`). -/
structure Event : Type where
  date : String
  description : String
  people_involved : List String
  location : String
  source : String
deriving DecidableEq, Repr

/-- A key-facts entry: either a plain string (legacy shape) or a dict
(`{fact, source}` as produced by `extract_from_document`). -/
inductive KeyFact : Type where
  | kstr (s : String)
  | kdict (kvs : List (String × JValue))

/-- A conflict record as built by `detect_conflicts`. -/
structure Conflict : Type where
  subject : String
  /-- the `"type"` key of the Python dict -/
  ctype : String
  claims : List ClaimR
  sources : List String
  description : String
deriving DecidableEq, Repr

/-- The cumulative extraction graph (`all_data`).  Python accesses every key
through `.get(k, [])` / `setdefault(k, [])`, so total fields defaulting to
`[]` are a faithful model of possibly-absent keys. -/
structure GraphData : Type where
  documents : List String := []
  entities : List Entity := []
  claims : List ClaimR := []
  events : List Event := []
  key_facts : List KeyFact := []
  conflicts : List Conflict := []

/-- A per-document extraction (`new_extraction` as passed to
`merge_extraction`): the four item lists the merge reads. -/
structure Extraction : Type where
  entities : List Entity := []
  claims : List ClaimR := []
  events : List Event := []
  key_facts : List KeyFact := []

/-! ## `src/extract.py` operations -/

/-- Embedding of `_normalize_name` (extract.py:186): lowercase and strip. -/
def _normalize_name (name : String) : String :=
  if name == "" then "" else pyStrip (pyLower name)

/-- Normalised name of an entity (`_normalize_name(e.get("name", ""))`). -/
def entNorm (e : Entity) : String := _normalize_name e.name

/-- Python `list(set(a) | set(b))` on lists of strings.  Set iteration order
is unspecified in Python; first-occurrence order is the canonical model
(membership and cardinality are exact). -/
def setUnionStr (a b : List String) : List String := dedupFirst (a ++ b)

/-- Source update performed when `merge_extraction` merges a new entity into
an existing one (extract.py:158-165).  In the repository every freshly
extracted entity carries a string source (`extract_from_document` tags
`item["source"] = doc_name`), so the new source is a string or an
(impossible in the pipeline) list; a list-valued new source appended into a
list would be a heterogeneous nested list, modelled as no change. -/
def mergeSourceVal (existing newS : SrcV) : SrcV :=
  if srcTruthy newS && newS != existing then
    match existing, newS with
    | .l vs, .s ns => if ns ∈ vs then .l vs else .l (vs ++ [ns])
    | .l vs, .l _ => .l vs
    | .s es, .s n2 => if es != "" then .l [es, n2] else .s n2
    | .s es, .l ns => if es != "" then .s es else .l ns
  else existing

/-- Merge a new entity into an existing entity with the same normalised name
(`merge_extraction`, extract.py:150-168): union mentions, update source,
keep the longer description.  Name and type are not touched. -/
def mergeIntoEntity (existing ne : Entity) : Entity :=
  { existing with
    mentions := setUnionStr existing.mentions ne.mentions,
    source := mergeSourceVal existing.source ne.source,
    description :=
      if existing.description.length < ne.description.length then ne.description
      else existing.description }

/-- Index of the last element satisfying `p` (Python's
`{k: i for i, e in enumerate(...)}` keeps the last index for duplicate keys,
and in-loop appends extend the map; since merging never changes names the
map always sends a normalised name to the last index bearing it). -/
def findLastIdx (p : α → Bool) : List α → Option Nat
  | [] => none
  | x :: xs =>
    match findLastIdx p xs with
    | some i => some (i + 1)
    | none => if p x then some 0 else none

/-- One iteration of the entity-merge loop of `merge_extraction`
(extract.py:147-172): merge into the entity with the same normalised name if
one exists, else append. -/
def mergeEntityStep (acc : List Entity) (ne : Entity) : List Entity :=
  match findLastIdx (fun e => entNorm e == entNorm ne) acc with
  | some idx => acc.set idx (mergeIntoEntity (acc.getD idx ne) ne)
  | none => acc ++ [ne]

/-- The entity-merge loop of `merge_extraction` over all new entities. -/
def mergeEntities (existing news : List Entity) : List Entity :=
  news.foldl mergeEntityStep existing

/-- Embedding of `merge_extraction` (extract.py:136-183): register the
document, merge entities with deduplication, append claims, events and key
facts.  Conflicts are not touched. -/
def merge_extraction (all_data : GraphData) (new_extraction : Extraction)
    (doc_name : String) : GraphData :=
  { all_data with
    documents :=
      if doc_name ∈ all_data.documents then all_data.documents
      else all_data.documents ++ [doc_name],
    entities := mergeEntities all_data.entities new_extraction.entities,
    claims := all_data.claims ++ new_extraction.claims,
    events := all_data.events ++ new_extraction.events,
    key_facts := all_data.key_facts ++ new_extraction.key_facts }

/-- Python `claim.get("subject", "").lower().strip()`. -/
def claimSubjectNorm (c : ClaimR) : String := pyStrip (pyLower c.subject)

/-- Append a claim to its subject group, preserving dict insertion order
(`defaultdict` in `detect_conflicts`). -/
def addToGroup : List (String × List ClaimR) → String → ClaimR → List (String × List ClaimR)
  | [], s, c => [(s, [c])]
  | (k, cs) :: rest, s, c =>
    if k == s then (k, cs ++ [c]) :: rest else (k, cs) :: addToGroup rest s c

/-- One step of the subject-grouping loop of `detect_conflicts`
(extract.py:289-293): claims with an empty normalised subject are skipped. -/
def groupStep (acc : List (String × List ClaimR)) (c : ClaimR) : List (String × List ClaimR) :=
  let subject := claimSubjectNorm c
  if subject == "" then acc else addToGroup acc subject c

/-- Embedding of `detect_conflicts` (extract.py:276-317) called without a
completion-service client (`client=None`), i.e. the pure heuristic pass:
group claims by normalised subject, and flag subjects with more than one
distinct claim text. -/
def detect_conflicts (all_data : GraphData) : List Conflict :=
  let claims := all_data.claims
  if claims.length < 2 then []
  else
    let by_subject := claims.foldl groupStep []
    by_subject.foldl
      (fun conflicts sg =>
        let subject := sg.1
        let subject_claims := sg.2
        let sources := dedupFirst (subject_claims.map (fun c => c.source))
        if sources.length > 1 || subject_claims.length > 1 then
          let unique_claim_texts := dedupFirst (subject_claims.map (fun c => pyLower c.claim))
          if unique_claim_texts.length > 1 then
            conflicts ++
              [{ subject := subject
                 ctype := "potential_inconsistency"
                 claims := subject_claims
                 sources := sources
                 description :=
                   "Multiple different claims about " ++ sqStr ++ subject ++ sqStr ++
                     " found across documents" }]
          else conflicts
        else conflicts)
      []

/-- Keep-predicate of the key-facts filter in `remove_document_extraction`
(extract.py:407-408): `isinstance(f, dict) and f.get("source") != doc_name`.
A dict without a `"source"` key yields `None`, which differs from any
string. -/
def kfKeep (f : KeyFact) (doc_name : String) : Bool :=
  match f with
  | .kstr _ => false
  | .kdict kvs =>
    match jvGet kvs "source" with
    | none => true
    | some v => jvNeStr v doc_name

/-- Embedding of `remove_document_extraction` (extract.py:389-414).  The
function loads the persisted graph, transforms it and saves it back; file
persistence is abstracted, this is the transformation applied between load
and save.  `documents.remove` removes the first occurrence and is guarded by
a membership test. -/
def remove_document_extraction (all_data : GraphData) (doc_name : String) : GraphData :=
  { documents :=
      if doc_name ∈ all_data.documents then all_data.documents.erase doc_name
      else all_data.documents,
    entities := all_data.entities.filter (fun e => srcNeqStr e.source doc_name),
    claims := all_data.claims.filter (fun c => c.source != doc_name),
    events := all_data.events.filter (fun e => e.source != doc_name),
    key_facts := all_data.key_facts.filter (fun f => kfKeep f doc_name),
    conflicts := [] }

/-! ## A small regular-expression engine

The router (`src/router.py`) drives its decisions through `re.search` over a
fixed list of patterns built from literals, character classes, `.*`,
alternation, option, `+`, the word-boundary assertion and the start anchor.
The engine below interprets exactly these constructs; each Python pattern is
transliterated into an `Rx` term.  `rxSearch` only asks whether a match
exists somewhere, so greediness is irrelevant and the matcher can return all
outcomes.  The matcher carries the character preceding the current position
so that word boundaries can be decided. -/

/-- Python `\w` (ASCII word character). -/
def isWordCh (c : Char) : Bool := c.isAlphanum || c == '_'

/-- Regular expressions: the constructs used by the router's patterns. -/
inductive Rx : Type where
  | eps
  | cls (p : Char → Bool)
  | seq (a b : Rx)
  | alt (a b : Rx)
  | star (a : Rx)
  /-- word boundary assertion -/
  | bnd
  /-- start-of-string anchor -/
  | bol

/-- Word-character status of the optional preceding character. -/
def optWord : Option Char → Bool
  | none => false
  | some c => isWordCh c

/-- All ways a pattern can match a prefix of `s`; each outcome is the pair of
the last consumed character and the remaining suffix.  Fuel bounds the
recursion; `rxSearch` passes enough for any pattern/string in use. -/
def mrun : Nat → Rx → Option Char → List Char → List (Option Char × List Char)
  | 0, _, _, _ => []
  | fuel + 1, r, prev, s =>
    match r with
    | .eps => [(prev, s)]
    | .cls p =>
      match s with
      | [] => []
      | c :: rest => if p c then [(some c, rest)] else []
    | .seq a b => (mrun fuel a prev s).flatMap (fun st => mrun fuel b st.1 st.2)
    | .alt a b => mrun fuel a prev s ++ mrun fuel b prev s
    | .star a =>
      (prev, s) ::
        (mrun fuel a prev s).flatMap
          (fun st => if st.2.length < s.length then mrun fuel (.star a) st.1 st.2 else [])
    | .bnd =>
      if optWord prev != (match s with | [] => false | c :: _ => isWordCh c)
      then [(prev, s)] else []
    | .bol => match prev with | none => [(prev, s)] | some _ => []

/-- Structural size of a pattern, used to compute a sufficient fuel. -/
def rxSize : Rx → Nat
  | .eps => 1
  | .cls _ => 1
  | .seq a b => rxSize a + rxSize b + 1
  | .alt a b => rxSize a + rxSize b + 1
  | .star a => rxSize a + 1
  | .bnd => 1
  | .bol => 1

/-- Python `re.search(pattern, s) is not None`: a match starting at some
position of `s`. -/
def rxSearch (r : Rx) (s : String) : Bool :=
  let cs := s.data
  (List.range (cs.length + 1)).any
    (fun i =>
      !(mrun ((rxSize r + 2) * (cs.length + 2)) r ((cs.take i).getLast?) (cs.drop i)).isEmpty)

/-- Literal string pattern. -/
def rlit (s : String) : Rx :=
  s.data.foldr (fun c acc => Rx.seq (Rx.cls (fun x => x == c)) acc) Rx.eps

/-- The `.` class (anything but a newline, Python default mode). -/
def rdot : Rx := Rx.cls (fun c => c != '\n')

/-- The `.*` pattern. -/
def rstarDot : Rx := Rx.star rdot

/-- One-or-more repetition. -/
def rplus (r : Rx) : Rx := Rx.seq r (Rx.star r)

/-- Optional pattern (`(?:...)?`). -/
def ropt (r : Rx) : Rx := Rx.alt r Rx.eps

/-- Sequence of a list of patterns. -/
def rcat (l : List Rx) : Rx := l.foldr Rx.seq Rx.eps

/-- Alternation of a non-empty list of patterns. -/
def ralts : List Rx → Rx
  | [] => Rx.eps
  | [r] => r
  | r :: rest => Rx.alt r (ralts rest)

/-! ## `src/router.py`: name extraction and entity matching -/

/-- Embedding of `_normalize_for_matching` (router.py:95-97):
`re.sub(r'[^\w\s]', '', text.lower()).strip()` — drop every character that is
neither a word character nor whitespace, then strip. -/
def _normalize_for_matching (text : String) : String :=
  pyStrip (String.mk ((pyLower text).data.filter (fun c => isWordCh c || c.isWhitespace)))

/-- ASCII `[A-Z]`. -/
def isUpperAZ (c : Char) : Bool := 'A' ≤ c && c ≤ 'Z'

/-- ASCII `[a-z]`. -/
def isLowerAZ (c : Char) : Bool := 'a' ≤ c && c ≤ 'z'

/-- A quote character of the pattern `["\']`. -/
def isQuote (c : Char) : Bool := c == '"' || c == sqChar

/-- Scanner for `re.findall(r'["\\']([^"\\']+)["\\']', question)`: non-greedy
backtracking is not needed because `[^"\']+` is maximal up to the next quote;
an empty interior or a missing closing quote fails at that start position and
the scan advances one character, exactly as the regex engine does. -/
def quotScanF : Nat → List Char → List String
  | 0, _ => []
  | _, [] => []
  | fuel + 1, c :: rest =>
    if isQuote c then
      let inner := rest.takeWhile (fun x => !isQuote x)
      let rest2 := rest.dropWhile (fun x => !isQuote x)
      match rest2 with
      | _ :: rest3 =>
        if inner.isEmpty then quotScanF fuel rest
        else String.mk inner :: quotScanF fuel rest3
      | [] => quotScanF fuel rest
    else quotScanF fuel rest

/-- Parse one `\s+[A-Z][a-z]+` extension of a capitalised-word sequence.
Whitespace and the lowercase run are taken maximally: shrinking either leaves
the next required class unsatisfied, so no other split can match. -/
def capsParseRep (l : List Char) : Option (List Char × List Char) :=
  let ws := l.takeWhile Char.isWhitespace
  let r1 := l.dropWhile Char.isWhitespace
  if ws.isEmpty then none
  else
    match r1 with
    | [] => none
    | u :: r2 =>
      if isUpperAZ u then
        let low := r2.takeWhile isLowerAZ
        let r3 := r2.dropWhile isLowerAZ
        if low.isEmpty then none else some (ws ++ u :: low, r3)
      else none

/-- All the consecutive `\s+[A-Z][a-z]+` extensions (matched text paired with
the rest), shortest first. -/
def capsRepsF : Nat → List Char → List (List Char × List Char)
  | 0, _ => []
  | fuel + 1, l =>
    match capsParseRep l with
    | none => []
    | some (seg, rest) => (seg, rest) :: (capsRepsF fuel rest).map (fun pr => (seg ++ pr.1, pr.2))

/-- A trailing word boundary holds after the match (next character, if any,
is not a word character; the matched text always ends in a letter). -/
def capsBoundary : List Char → Bool
  | [] => true
  | c :: _ => !isWordCh c

/-- Greedy choice with backtracking over the repetition count: the longest
extension list whose trailing boundary holds, else the bare token.  Inside a
repetition the `[a-z]+` run cannot usefully backtrack (any shorter split
places a letter right after the match, violating the boundary), so only the
repetition count matters. -/
def capsPick (token : List Char) (rest2 : List Char)
    (reps : List (List Char × List Char)) : Option (List Char × List Char) :=
  match reps.reverse.find? (fun pr => capsBoundary pr.2) with
  | some pr => some (token ++ pr.1, pr.2)
  | none => if capsBoundary rest2 then some (token, rest2) else none

/-- Scanner for
`re.findall(r'\b([A-Z][a-z]+(?:\s+[A-Z][a-z]+)*)\b', question)`
(router.py:113): left-to-right, non-overlapping, resuming after each match,
tracking the previous character so the leading word boundary can be decided
(the first character being `[A-Z]`, the boundary is equivalent to the
previous character not being a word character). -/
def capsScanF : Nat → Option Char → List Char → List String
  | 0, _, _ => []
  | _, _, [] => []
  | fuel + 1, prev, c :: rest =>
    if !optWord prev && isUpperAZ c then
      let low := rest.takeWhile isLowerAZ
      let rest2 := rest.dropWhile isLowerAZ
      if low.isEmpty then capsScanF fuel (some c) rest
      else
        let token := c :: low
        match capsPick token rest2 (capsRepsF (rest2.length + 1) rest2) with
        | some (matched, restAfter) =>
          String.mk matched :: capsScanF fuel matched.getLast? restAfter
        | none => capsScanF fuel (some c) rest
    else capsScanF fuel (some c) rest

/-- Embedding of `_extract_potential_names` (router.py:100-116): quoted
strings first, then capitalised word sequences. -/
def _extract_potential_names (question : String) : List String :=
  let quoted := quotScanF (question.data.length + 1) question.data
  let capitalized := capsScanF (question.data.length + 1) none question.data
  quoted ++ capitalized

/-- Python `set(s.split())`: the word set of a normalised name, as a
first-occurrence deduplicated list (cardinality and membership exact). -/
def wordSet (s : String) : List String := dedupFirst (splitWs s)

/-- The per-(name, entity) match condition of `_find_matching_entities`
(router.py:126-157): exact normalised match, word-subset in either
direction, or any single-word overlap when the query name is a single word
and the entity name has several. -/
def entityMatchCond (name : String) (entity : Entity) : Bool :=
  let nameNormalized := _normalize_for_matching name
  let nameWords := wordSet nameNormalized
  let entityNormalized := _normalize_for_matching entity.name
  let entityWords := wordSet entityNormalized
  (nameNormalized == entityNormalized) ||
  (!nameWords.isEmpty && nameWords.all (fun w => entityWords.contains w)) ||
  (!entityWords.isEmpty && entityWords.all (fun w => nameWords.contains w)) ||
  (nameWords.length == 1 && entityWords.length > 1 &&
    nameWords.any (fun w => entityWords.contains w))

/-- One inner-loop step of `_find_matching_entities`: append the entity on a
match unless already collected (Python `if entity not in matches`). -/
def fmeInner (name : String) (ms : List Entity) (entity : Entity) : List Entity :=
  if entityMatchCond name entity then
    (if entity ∈ ms then ms else ms ++ [entity])
  else ms

/-- Embedding of `_find_matching_entities` (router.py:119-159): the nested
loops over names and entities. -/
def _find_matching_entities (names : List String) (entities : List Entity) : List Entity :=
  names.foldl (fun ms name => entities.foldl (fmeInner name) ms) []

/-! ## `src/router.py`: classification -/

/-- The entity-lookup patterns of `_is_entity_lookup_query`
(router.py:170-184), transliterated in order. -/
def entity_lookup_patterns : List Rx :=
  [ rcat [Rx.bol, rlit "who is", Rx.bnd],
    rcat [Rx.bol, rlit "who was", Rx.bnd],
    rcat [Rx.bol, rlit "who are", Rx.bnd],
    rcat [Rx.bol, rlit "what is ", ropt (rlit "the "), rplus (Rx.cls isWordCh),
          Rx.alt (rlit (sqStr ++ "s")) (rlit " of"), Rx.bnd],
    rcat [Rx.bol, rlit "tell me about", Rx.bnd],
    rcat [Rx.bol, rlit "what do ", Rx.alt (rlit "we") (rlit "you"), rlit " know about", Rx.bnd],
    rcat [Rx.bol, rlit "information ", Rx.alt (rlit "on") (rlit "about"), Rx.bnd],
    rcat [Rx.bol, rlit "details ", Rx.alt (rlit "on") (rlit "about"), Rx.bnd],
    rcat [Rx.bol, rlit "background on", Rx.bnd],
    rcat [Rx.bol, rlit "profile of", Rx.bnd],
    rcat [Rx.bol, rlit "describe", Rx.bnd],
    rcat [Rx.bnd, rlit "who", Rx.bnd, rstarDot, Rx.bnd, rlit "mentioned", Rx.bnd],
    rcat [Rx.bnd, rlit "what", Rx.bnd, rstarDot, Rx.bnd, rlit "role", Rx.bnd] ]

/-- Embedding of `_is_entity_lookup_query` (router.py:162-190). -/
def _is_entity_lookup_query (question : String) : Bool :=
  let question_lower := pyStrip (pyLower question)
  entity_lookup_patterns.any (fun p => rxSearch p question_lower)

/-- The keyword list of `_is_comprehensive_query` (router.py:200-212). -/
def comprehensive_keywords : List String :=
  [ "all ", "every ", "list ", "find all", "show all", "give me all",
    "inconsistencies", "contradictions", "conflicts", "discrepancies",
    "everyone", "everything", "everybody",
    "summarize all", "summary of all", "summarize the",
    "how many", "count ",
    "complete list", "full list",
    "all people", "all entities", "all events",
    "timeline", "chronology", "sequence of events",
    "overview", "what do we know",
    "what entities", "what people", "what events",
    "list the ", "list all" ]

/-- Embedding of `_is_comprehensive_query` (router.py:193-218). -/
def _is_comprehensive_query (question : String) : Bool :=
  let question_lower := pyStrip (pyLower question)
  comprehensive_keywords.any (fun kw => pyContains question_lower kw)

/-- The deep-analysis patterns of `_is_deep_analysis_query`
(router.py:229-251), transliterated in order. -/
def deep_analysis_patterns : List Rx :=
  [ rcat [rlit "why did", Rx.bnd],
    rcat [rlit "why was", Rx.bnd],
    rcat [rlit "how did", Rx.bnd],
    rcat [rlit "what happened", Rx.bnd, rstarDot, Rx.bnd, rlit "when", Rx.bnd],
    rcat [rlit "what", rstarDot, Rx.bnd, rlit "say about", Rx.bnd],
    rcat [rlit "what", rstarDot, Rx.bnd, rlit "testif"],
    rcat [rlit "what", rstarDot, Rx.bnd, rlit "state", Rx.bnd],
    rcat [rlit "what", rstarDot, Rx.bnd, rlit "claim", Rx.bnd],
    rcat [rlit "explain", rstarDot, Rx.bnd, rlit "relationship", Rx.bnd],
    rcat [rlit "connection between", Rx.bnd],
    rcat [rlit "evidence", Rx.bnd, rstarDot, Rx.bnd,
          ralts [rlit "that", rlit "of", rlit "for"], Rx.bnd],
    rcat [rlit "prove", Rx.bnd],
    rcat [rlit "according to", Rx.bnd],
    rcat [rlit "what does", rstarDot, Rx.bnd,
          ralts [rlit "document", rlit "report", rlit "interview"], Rx.bnd,
          rstarDot, Rx.bnd, rlit "say", Rx.bnd],
    rcat [rlit "quote", Rx.bnd],
    rcat [rlit "exact", Rx.bnd, rstarDot, Rx.bnd, rlit "word"],
    rcat [rlit "specific", rstarDot, Rx.bnd, rlit "detail"],
    rcat [rlit "context", Rx.bnd, rstarDot, Rx.bnd, rlit "of", Rx.bnd],
    rcat [rlit "circumstances", Rx.bnd],
    rcat [rlit "motive", Rx.bnd],
    rcat [rlit "reason", Rx.bnd, rstarDot, Rx.bnd, rlit "for", Rx.bnd] ]

/-- Embedding of `_is_deep_analysis_query` (router.py:221-257). -/
def _is_deep_analysis_query (question : String) : Bool :=
  let question_lower := pyStrip (pyLower question)
  deep_analysis_patterns.any (fun p => rxSearch p question_lower)

/-- Embedding of `classify_query` (router.py:260-315), with the extraction
graph passed explicitly (the `extracted_data is None` branch merely loads the
persisted graph).  When the question is an entity lookup but the graph has no
entities, control falls through to the deep-analysis check, exactly as in
the source. -/
def classify_query (question : String) (extracted_data : GraphData) : String :=
  if _is_comprehensive_query question then "EXHAUSTIVE"
  else
    let entityPath : Option String :=
      if _is_entity_lookup_query question then
        if !extracted_data.entities.isEmpty then
          let potential_names := _extract_potential_names question
          if !potential_names.isEmpty then
            some (if (_find_matching_entities potential_names extracted_data.entities).isEmpty
                  then "SPECIFIC" else "EXHAUSTIVE")
          else some "EXHAUSTIVE"
        else none
      else none
    match entityPath with
    | some r => r
    | none => if _is_deep_analysis_query question then "SPECIFIC" else "SPECIFIC"

/-- The entity keyword list of `get_query_category` (router.py:330-331). -/
def category_entity_keywords : List String :=
  [ "people", "person", "everyone", "who", "entities", "organizations",
    "names", "name", "individuals", "suspects", "witnesses", "victims" ]

/-- The entity pattern list of `get_query_category` (router.py:332-333). -/
def category_entity_patterns : List String :=
  [ "tell me about", "information on", "details on", "background on",
    "profile of", "what do we know about", "describe" ]

/-- Embedding of `get_query_category` (router.py:318-357). -/
def get_query_category (question : String) (extracted_data : GraphData) : String :=
  let question_lower := pyLower question
  if ["inconsisten", "contradict", "conflict", "discrepan"].any
      (fun kw => pyContains question_lower kw) then "conflicts"
  else if category_entity_keywords.any (fun kw => pyContains question_lower kw) then "entities"
  else if category_entity_patterns.any (fun p => pyContains question_lower p) then "entities"
  else
    let potential_names := _extract_potential_names question
    if !potential_names.isEmpty &&
        !(_find_matching_entities potential_names extracted_data.entities).isEmpty
    then "entities"
    else if ["timeline", "events", "when", "chronolog", "sequence", "dates"].any
        (fun kw => pyContains question_lower kw) then "events"
    else if ["summarize", "summary", "overview", "everything"].any
        (fun kw => pyContains question_lower kw) then "summary"
    else "general"

/-! ## `src/router.py`: the entities renderer

Needed by the anti-hallucination claim: `_answer_entities_query` and its
specific-entity helper, transliterated in full. -/

/-- Render the source attribution of an entity
(`_answer_specific_entity_query`, router.py:556-559). -/
def renderEntitySource (source : SrcV) : String :=
  match source with
  | .l vs => "**Sources:** " ++ String.intercalate ", " vs ++ "\n\n"
  | .s v => "**Source:** " ++ v ++ "\n\n"

/-- Render one entity dossier (the body of the `for entity in
matching_entities` loop of `_answer_specific_entity_query`,
router.py:540-614). -/
def renderEntityDossier (entity : Entity) (claims : List ClaimR) (data : GraphData) : String :=
  let name := entity.name
  let entity_type := entity.etype
  let desc := entity.description
  let head :=
    "## " ++ name ++ (if entity_type != "" then " (" ++ entity_type ++ ")" else "") ++ "\n\n" ++
    (if desc != "" then desc ++ "\n\n" else "") ++
    renderEntitySource entity.source
  let mentionsPart :=
    if !entity.mentions.isEmpty then
      "### Direct Mentions\n\n" ++
        concatStrings
          ((entity.mentions.take 5).map
            (fun mention =>
              if mention != "" then
                "> \"" ++ strTake mention 300 ++
                  (if mention.length > 300 then "..." else "") ++ "\"\n\n"
              else ""))
    else ""
  let entity_name_lower := _normalize_for_matching name
  let entity_words := wordSet entity_name_lower
  let related_claims :=
    claims.filter
      (fun claim =>
        let subject := pyLower claim.subject
        let claim_text := pyLower claim.claim
        pyContains subject entity_name_lower || pyContains claim_text entity_name_lower ||
          (!entity_words.isEmpty &&
            entity_words.any (fun word => pyContains subject word || pyContains claim_text word)))
  let claimsPart :=
    if !related_claims.isEmpty then
      "### Related Claims\n\n" ++
        concatStrings
          ((related_claims.take 10).map
            (fun claim =>
              "**" ++ claim.claim ++ "**\n\n" ++
                (if claim.quote != "" then
                  "> \"" ++ strTake claim.quote 200 ++
                    (if claim.quote.length > 200 then "..." else "") ++ "\"\n\n"
                 else "") ++
                "*Source: " ++ claim.source ++ "*\n\n---\n\n"))
    else ""
  let related_events :=
    data.events.filter
      (fun event =>
        let people := event.people_involved.map pyLower
        let desc_lower := pyLower event.description
        pyContains desc_lower entity_name_lower ||
          entity_words.any (fun word => pyContains desc_lower word) ||
          (!entity_words.isEmpty &&
            people.any (fun p => pyContains p (_normalize_for_matching name))))
  let eventsPart :=
    if !related_events.isEmpty then
      "### Related Events\n\n" ++
        concatStrings
          ((related_events.take 5).map
            (fun event =>
              "**" ++ event.date ++ "**\n\n" ++ event.description ++ "\n\n*Source: " ++
                event.source ++ "*\n\n---\n\n"))
    else ""
  head ++ mentionsPart ++ claimsPart ++ eventsPart

/-- Embedding of `_answer_specific_entity_query` (router.py:527-619). -/
def _answer_specific_entity_query (matching_entities : List Entity)
    (claims : List ClaimR) (data : GraphData) : String × Bool :=
  let response :=
    concatStrings (matching_entities.map (fun e => renderEntityDossier e claims data))
  if response == "" then ("No information found for the specified entity.", false)
  else (response, true)

/-- Python `s.rstrip("s")`: drop trailing `s` characters. -/
def rstripS (s : String) : String :=
  String.mk ((s.data.reverse.dropWhile (fun c => c == 's')).reverse)

/-- The listing branch of `_answer_entities_query` (router.py:474-524):
filter by entity type according to question keywords, deduplicate by
lowercased name, and render. -/
def renderEntityListing (question_lower : String) (entities : List Entity) : String × Bool :=
  let fe :=
    if ["people", "person", "everyone", "names", "name", "individuals", "suspects",
        "witnesses", "victims"].any (fun kw => pyContains question_lower kw) then
      (entities.filter (fun e => pyLower e.etype == "person"), "People")
    else if pyContains question_lower "organization" || pyContains question_lower "compan" then
      (entities.filter (fun e => pyLower e.etype == "organization"), "Organizations")
    else if pyContains question_lower "location" || pyContains question_lower "place" then
      (entities.filter (fun e => pyLower e.etype == "location"), "Locations")
    else (entities, "Entities")
  let filtered := fe.1
  let entity_type := fe.2
  if filtered.isEmpty then
    ("No " ++ pyLower entity_type ++ " were identified in the documents.", true)
  else
    let unique_entities :=
      (filtered.foldl
        (fun acc e =>
          let name_lower := pyLower e.name
          if name_lower != "" && !acc.1.contains name_lower then
            (acc.1 ++ [name_lower], acc.2 ++ [e])
          else acc)
        ([], [])).2
    let response :=
      "## " ++ entity_type ++ " Mentioned in Documents\n\n" ++
      "Found **" ++ toString unique_entities.length ++ "** unique " ++
        pyLower entity_type ++ ":\n\n" ++
      concatStrings
        (unique_entities.map
          (fun entity =>
            "### " ++ entity.name ++
              (if entity.etype != "" && pyLower entity.etype != rstripS (pyLower entity_type)
               then " (" ++ entity.etype ++ ")" else "") ++ "\n\n" ++
              (if entity.description != "" then entity.description ++ "\n\n" else "") ++
              (match entity.source with
               | .l vs => "*Sources: " ++ String.intercalate ", " vs ++ "*\n\n"
               | .s v => "*Source: " ++ v ++ "*\n\n")))
    (response, true)

/-- Embedding of `_answer_entities_query` (router.py:448-524).  On a miss
(names extracted but none matching) the source builds
`"\n".join(f"- **{e.get('name')}**" for e in entities if ...)[:15]` — the
`[:15]` slice applies to the *joined string*, truncating the rendered list
of person entities to its first 15 characters. -/
def _answer_entities_query (question : String) (data : GraphData) : String × Bool :=
  let entities := data.entities
  let claims := data.claims
  let question_lower := pyLower question
  let potential_names := _extract_potential_names question
  if !potential_names.isEmpty then
    let matching_entities := _find_matching_entities potential_names entities
    if !matching_entities.isEmpty then
      _answer_specific_entity_query matching_entities claims data
    else
      let names_str :=
        String.intercalate ", " (potential_names.map (fun name => "\"" ++ name ++ "\""))
      ("## No Information Found\n\n" ++
         "I searched the documents but could not find any information about " ++
         names_str ++ ".\n\n" ++
         "The following people ARE mentioned in the documents:\n\n" ++
         strTake
           (String.intercalate "\n"
             ((entities.filter (fun e => pyLower e.etype == "person")).map
               (fun e => "- **" ++ e.name ++ "**")))
           15 ++
         "\n\n*If you" ++ sqStr ++
         "re looking for someone specific, please check the spelling or try a different name.*",
       true)
  else renderEntityListing question_lower entities

/-! ## `src/coa.py`: query expansion -/

/-- The multi-aspect indicator list of `should_expand_query` (coa.py:24-28). -/
def multi_aspect_indicators : List String :=
  [ " and ", " or ", "including", "such as", "especially",
    "relationship", "connection", "between", "compare",
    "timeline", "sequence", "history", "background" ]

/-- First character is uppercase (Python `w and w[0].isupper()`). -/
def headIsUpper (w : String) : Bool :=
  match w.data with
  | [] => false
  | c :: _ => c.isUpper

/-- Embedding of `should_expand_query` (coa.py:11-43). -/
def should_expand_query (question : String) : Bool :=
  let words := splitWs question
  let question_lower := pyLower question
  if words.length < 6 then false
  else if multi_aspect_indicators.any (fun ind => pyContains question_lower ind) then true
  else
    let caps_words := (words.drop 1).filter (fun w => w != "" && headIsUpper w)
    if caps_words.length ≥ 2 then true
    else if words.length ≥ 12 then true
    else false

/-- The expansion prompt of `decompose_query` (coa.py:63-74). -/
def decomposePrompt (n_variants : Nat) (question : String) : String :=
  "Generate " ++ toString n_variants ++
    " different search queries to find information for this investigation question.\n\n" ++
    "RULES:\n- Each query should target a DIFFERENT aspect, angle, or entity\n" ++
    "- Use DIFFERENT vocabulary to maximize semantic search coverage\n" ++
    "- Keep queries focused and specific\n" ++
    "- Include variations that might surface edge cases or related context\n\n" ++
    "QUESTION: " ++ question ++ "\n\n" ++
    "Return ONLY a valid JSON array of exactly " ++ toString n_variants ++
    " search query strings.\n" ++
    "Example format: [\"query about aspect 1\", \"query about aspect 2\", " ++
    "\"query about aspect 3\", \"query about aspect 4\"]"

/-- The markdown code-fence stripping loop of `decompose_query`
(coa.py:81-93): skip until the opening fence, collect until the closing
fence (`break`), join with newlines. -/
def collectFenced : List String → Bool → List String
  | [], _ => []
  | line :: rest, in_json =>
    if strStarts line "```" then
      if !in_json then collectFenced rest true
      else []
    else if in_json then line :: collectFenced rest in_json
    else collectFenced rest in_json

/-- Python iteration over a non-list `json.loads` result, as used by the
fallback branch `[str(q) for q in queries]` of `decompose_query`: a string
iterates over its characters, a dict over its keys, and scalars raise
`TypeError` (caught by the enclosing `except`), modelled as `none`. -/
def pyIterStrs : JValue → Option (List String)
  | .jstr s => some (s.data.map (fun c => String.singleton c))
  | .jobj kvs => some (kvs.map (fun kv => kv.1))
  | .jarr xs => some (xs.map pyStr)
  | _ => none

/-- Pad with the original question up to `n` entries, then take `n`
(the `while len(queries) < n_variants` loop plus `queries[:n_variants]`). -/
def padTake (qs : List String) (question : String) (n : Nat) : List String :=
  (qs ++ List.replicate (n - qs.length) question).take n

/-- Embedding of `decompose_query` (coa.py:46-113).  The completion service
is the oracle `llm` (`none` models a raised exception), `json.loads` is the
oracle `parse` (`none` models `JSONDecodeError`).  Returns the search
queries and the `expanded` flag. -/
def decompose_query (llm : String → Option String) (parse : String → Option JValue)
    (question : String) (n_variants : Nat) (force_expand : Bool) : List String × Bool :=
  if !force_expand && !should_expand_query question then
    (List.replicate n_variants question, false)
  else
    match llm (decomposePrompt n_variants question) with
    | none => (List.replicate n_variants question, false)
    | some raw =>
      let response_text := pyStrip raw
      let response_text :=
        if strStarts response_text "```" then
          String.intercalate "\n" (collectFenced (response_text.splitOn "\n") false)
        else response_text
      match parse response_text with
      | none => (List.replicate n_variants question, false)
      | some queries =>
        match queries with
        | .jarr items =>
          if n_variants ≤ items.length then ((items.take n_variants).map pyStr, true)
          else (padTake (items.map pyStr) question n_variants, true)
        | other =>
          match pyIterStrs other with
          | none => (List.replicate n_variants question, false)
          | some items => (padTake items question n_variants, true)

/-! ## `src/coa.py`: orchestration with progress -/

/-- A conversation message as read by `format_conversation_history`
(dict with optional `role` / `sender` / `content` keys). -/
structure Msg : Type where
  role? : Option String := none
  sender? : Option String := none
  content? : Option String := none

/-- Python `msg.get("role") or msg.get("sender", "")`. -/
def msgRoleValue (m : Msg) : String :=
  match m.role? with
  | some r => if r != "" then r else m.sender?.getD ""
  | none => m.sender?.getD ""

/-- Embedding of `format_conversation_history` (coa.py:161-177). -/
def format_conversation_history (history : List Msg) : String :=
  if history.isEmpty then ""
  else
    (history.foldl
      (fun acc msg =>
        let role_value := msgRoleValue msg
        let role := if role_value == "user" || role_value == "User" then "User" else "Assistant"
        let content := msg.content?.getD ""
        let content :=
          if content.length > 500 then strTake content 500 ++ "..." else content
        acc ++ role ++ ": " ++ content ++ "\n\n")
      "CONVERSATION HISTORY:\n") ++ "---\n\n"

/-- The `history_context` computation of `coa_report_with_progress`
(coa.py:201): empty unless a non-empty history is provided. -/
def coaHistoryContext (conversation_history : Option (List Msg)) : String :=
  match conversation_history with
  | none => ""
  | some h => if h.isEmpty then "" else format_conversation_history h

/-- Observable events of one orchestration run: progress-callback
invocations and worker search calls, in program order. -/
inductive TraceEv : Type where
  | progress (status : String) (current total : Nat)
  | workerCall (input : String)
deriving DecidableEq, Repr

/-- The search queries used by the workers (coa.py:203-212): decompose when
expansion is enabled, else `n_workers` copies of the question. -/
def coaSearchQueries (llm : String → Option String) (parse : String → Option JValue)
    (question : String) (n_workers : Nat) (use_query_expansion : Bool) :
    List String × Bool :=
  if use_query_expansion then decompose_query llm parse question n_workers false
  else (List.replicate n_workers question, false)

/-- The per-worker progress status string (coa.py:219-223): show the focus,
truncated to 40 characters, when expansion produced a distinct query. -/
def workerStatus (expanded : Bool) (search_query question : String) (i : Nat) : String :=
  if expanded && search_query != question then
    "Worker " ++ toString (i + 1) ++ " searching: \"" ++ strTake search_query 40 ++
      (if search_query.length > 40 then "..." else "") ++ "\""
  else "Worker " ++ toString (i + 1) ++ " analyzing documents..."

/-- The worker input prompt (coa.py:226-233). -/
def coaWorkerInput (worker_prompt history_context question search_query : String)
    (i n_workers : Nat) : String :=
  worker_prompt ++ "\n\n" ++ history_context ++ "ORIGINAL USER QUESTION:\n" ++ question ++
    "\n\nYOUR SEARCH FOCUS:\n" ++ search_query ++ "\n\nWORKER PASS: " ++ toString (i + 1) ++
    "/" ++ toString n_workers ++
    "\nSearch for information related to your focus area while keeping the original question in mind."

/-- One worker's recorded output (coa.py:235-242): parse the returned text as
JSON and tag it with `_search_query`; on a parse failure — or when the
parsed value is not a dict, so that the tagging assignment raises inside the
same `try` — degrade to `{raw_text, _search_query}`. -/
def coaWorkerOutput (parse : String → Option JValue) (text search_query : String) : JValue :=
  match parse text with
  | some (.jobj kvs) => .jobj (jvSetKey kvs "_search_query" (.jstr search_query))
  | some _ => .jobj [("raw_text", .jstr text), ("_search_query", .jstr search_query)]
  | none => .jobj [("raw_text", .jstr text), ("_search_query", .jstr search_query)]

/-- The query worker `i` runs with (`search_queries[i]`, coa.py:216; the
queries list always holds exactly `n_workers` entries so the default is
never read). -/
def coaWorkerQueryAt (llm : String → Option String) (parse : String → Option JValue)
    (question : String) (n_workers : Nat) (use_query_expansion : Bool) (i : Nat) : String :=
  (coaSearchQueries llm parse question n_workers use_query_expansion).1.getD i ""

/-- The input prompt worker `i` is given (coa.py:226-233). -/
def coaWorkerInputAt (llm : String → Option String) (parse : String → Option JValue)
    (worker_prompt question : String) (n_workers : Nat)
    (conversation_history : Option (List Msg)) (use_query_expansion : Bool) (i : Nat) : String :=
  coaWorkerInput worker_prompt (coaHistoryContext conversation_history) question
    (coaWorkerQueryAt llm parse question n_workers use_query_expansion i) i n_workers

/-- The output recorded for worker `i` (coa.py:234-242). -/
def coaWorkerOutputAt (llm : String → Option String) (parse : String → Option JValue)
    (ask : String → String) (worker_prompt question : String) (n_workers : Nat)
    (conversation_history : Option (List Msg)) (use_query_expansion : Bool) (i : Nat) : JValue :=
  coaWorkerOutput parse
    (ask (coaWorkerInputAt llm parse worker_prompt question n_workers
      conversation_history use_query_expansion i))
    (coaWorkerQueryAt llm parse question n_workers use_query_expansion i)

/-- The observable events of worker `i`'s loop iteration (coa.py:218-234):
the progress notification (when a callback is installed) followed by the
search call. -/
def coaWorkerEventsAt (llm : String → Option String) (parse : String → Option JValue)
    (worker_prompt question : String) (n_workers : Nat) (hasProgress : Bool)
    (conversation_history : Option (List Msg)) (use_query_expansion : Bool) (i : Nat) :
    List TraceEv :=
  (if hasProgress then
     [TraceEv.progress
       (workerStatus (coaSearchQueries llm parse question n_workers use_query_expansion).2
         (coaWorkerQueryAt llm parse question n_workers use_query_expansion i) question i)
       (i + 1) n_workers]
   else []) ++
  [TraceEv.workerCall (coaWorkerInputAt llm parse worker_prompt question n_workers
    conversation_history use_query_expansion i)]

/-- The pre-loop progress notification (coa.py:204-206), emitted only when
expansion is enabled and a callback is installed. -/
def coaTrace0 (n_workers : Nat) (hasProgress use_query_expansion : Bool) : List TraceEv :=
  if use_query_expansion && hasProgress then
    [TraceEv.progress "Analyzing question and generating search strategies..." 0 n_workers]
  else []

/-- The worker loop of `coa_report_with_progress` (coa.py:214-242),
accumulating outputs and observable events. -/
def coaLoop (llm : String → Option String) (parse : String → Option JValue)
    (ask : String → String) (worker_prompt question : String) (n_workers : Nat)
    (hasProgress : Bool) (conversation_history : Option (List Msg))
    (use_query_expansion : Bool) : List JValue × List TraceEv :=
  (List.range n_workers).foldl
    (fun acc i =>
      (acc.1 ++ [coaWorkerOutputAt llm parse ask worker_prompt question n_workers
          conversation_history use_query_expansion i],
       acc.2 ++ coaWorkerEventsAt llm parse worker_prompt question n_workers hasProgress
          conversation_history use_query_expansion i))
    (([], coaTrace0 n_workers hasProgress use_query_expansion) : List JValue × List TraceEv)

/-- Embedding of `coa_report_with_progress` (coa.py:180-251).  Oracles:
`llm` is `client.responses.create(...).output_text` (`none` = exception),
`parse` is `json.loads`, `ask` is `ask_with_file_search(...).output_text`
(on a raw worker-input string).  The progress callback is modelled by
recording `TraceEv.progress` events (emitted only when a callback is
installed, `hasProgress`); worker search calls are recorded as
`TraceEv.workerCall` in program order.  Returns
`((worker_outputs, manager_input), trace)`. -/
def coa_report_with_progress (llm : String → Option String)
    (parse : String → Option JValue) (ask : String → String)
    (worker_prompt manager_prompt : String) (question : String) (n_workers : Nat)
    (hasProgress : Bool) (conversation_history : Option (List Msg))
    (use_query_expansion : Bool) : (List JValue × String) × List TraceEv :=
  let loop := coaLoop llm parse ask worker_prompt question n_workers hasProgress
    conversation_history use_query_expansion
  let manager_input :=
    manager_prompt ++ "\n\n" ++ coaHistoryContext conversation_history ++
      "CURRENT QUESTION:\n" ++ question ++
      "\n\nWORKER OUTPUTS (JSON):\n" ++ jsonDumps (.jarr loop.1) ++ "\n"
  ((loop.1, manager_input), loop.2)

/-! ## `src/coa.py`: streaming synthesis -/

/-- The value of an event's `delta` attribute: either a plain string or an
object that may or may not expose a `text` attribute. -/
inductive DeltaV : Type where
  | vstr (s : String)
  | vobj (text? : Option String)
deriving DecidableEq, Repr

/-- One event of the streaming channel, duck-typed as in
`stream_manager_response`: optional `type`, `delta` and `text` attributes. -/
structure StreamEvent : Type where
  type? : Option String := none
  delta? : Option DeltaV := none
  text? : Option String := none

/-- What one stream event makes the generator yield (coa.py:271-290): an
unrecognised event yields nothing.  The first branch yields the raw `delta`
attribute, whatever it is. -/
def eventYields (e : StreamEvent) : List DeltaV :=
  match e.type? with
  | some t =>
    if t == "response.output_text.delta" then
      match e.delta? with
      | some d => [d]
      | none => []
    else if t == "response.content_part.delta" then
      match e.delta? with
      | some (.vobj (some s)) => [.vstr s]
      | _ => []
    else if t == "content_block_delta" then
      match e.delta? with
      | some (.vobj (some s)) => [.vstr s]
      | _ => []
    else []
  | none =>
    match e.text? with
    | some s => [.vstr s]
    | none =>
      match e.delta? with
      | some (.vstr s) => [.vstr s]
      | some (.vobj (some s)) => [.vstr s]
      | _ => []

/-- Outcome of the streaming attempt: the channel is established and the
event iteration completes, or an exception is raised after some events were
already consumed (`failAfter []` is an establishment failure). -/
inductive StreamAttempt : Type where
  | ok (events : List StreamEvent)
  | failAfter (events : List StreamEvent)

/-- Fixed-size chunking of the fallback text (`chunk_size = 10`,
coa.py:300-302): `for i in range(0, len(full_text), 10): yield
full_text[i:i+10]`. -/
def chunk10 : List Char → List (List Char)
  | [] => []
  | c :: cs => ((c :: cs).take 10) :: chunk10 ((c :: cs).drop 10)
termination_by l => l.length
decreasing_by
  simp only [List.drop, List.length_cons, List.length_drop]
  omega

/-- String-level chunking of the fallback response. -/
def chunkString (s : String) : List String := (chunk10 s.data).map String.mk

/-- Embedding of `stream_manager_response` (coa.py:254-304).  The streaming
attempt and the blocking fallback call are oracles; the generator's yields
are collected into a list (finite and never raising by construction).  On a
streaming failure the fragments already yielded stay yielded, then the
blocking call's text is re-chunked; if the blocking call also fails
(`Except.error`), a single error fragment is yielded. -/
def stream_manager_response (attempt : StreamAttempt)
    (fallback : Except String String) : List DeltaV :=
  match attempt with
  | .ok events => events.flatMap eventYields
  | .failAfter events =>
    events.flatMap eventYields ++
      (match fallback with
       | .ok full_text => (chunkString full_text).map DeltaV.vstr
       | .error e2 => [DeltaV.vstr ("Error generating response: " ++ e2)])

/-! ## Supporting lemmas -/

/-- Boolean inequality against a string, propositionally. -/
theorem jvNeStr_true_iff (v : JValue) (doc : String) :
    jvNeStr v doc = true ↔ v ≠ JValue.jstr doc := by
  cases v <;> simp [jvNeStr]

/-- Flattening the 10-character chunks restores the original list. -/
theorem chunk10_flatten : ∀ l : List Char, (chunk10 l).flatten = l := by
  intro l
  induction l using chunk10.induct with
  | case1 => simp [chunk10]
  | case2 c cs ih =>
    rw [chunk10, List.flatten_cons, ih, List.take_append_drop]

/-- Every chunk holds at most 10 characters. -/
theorem chunk10_le : ∀ l : List Char, ∀ c ∈ chunk10 l, c.length ≤ 10 := by
  intro l
  induction l using chunk10.induct with
  | case1 => simp [chunk10]
  | case2 c cs ih =>
    intro x hx
    rw [chunk10] at hx
    rcases List.mem_cons.1 hx with h1 | h1
    · subst h1
      simp only [List.length_take]
      exact Nat.min_le_left 10 _
    · exact ih x h1

/-- Every chunk except possibly the last holds exactly 10 characters. -/
theorem chunk10_full : ∀ (l : List Char) (i : Nat), i + 1 < (chunk10 l).length →
    ((chunk10 l).getD i []).length = 10 := by
  intro l
  induction l using chunk10.induct with
  | case1 => intro i h; simp [chunk10] at h
  | case2 c cs ih =>
    intro i h
    rw [chunk10] at h ⊢
    cases i with
    | zero =>
      simp only [List.getD_cons_zero, List.length_take]
      simp only [List.length_cons] at h ⊢
      by_cases hd : (c :: cs).drop 10 = []
      · rw [hd] at h; simp [chunk10] at h
      · have h10 : 10 < (c :: cs).length := by
          by_contra hle
          exact hd (List.drop_eq_nil_of_le (Nat.le_of_not_lt hle))
        simp only [List.length_cons] at h10
        omega
    | succ j =>
      simp only [List.getD_cons_succ]
      exact ih j (by simpa using Nat.lt_of_succ_lt_succ h)

/-- Lifting `getD` through `String.mk`. -/
theorem getD_map_mk : ∀ (l : List (List Char)) (i : Nat),
    (l.map String.mk).getD i "" = String.mk (l.getD i []) := by
  intro l
  induction l with
  | nil => intro i; cases i <;> rfl
  | cons x xs ih =>
    intro i
    cases i with
    | zero => rfl
    | succ j => simp only [List.map_cons, List.getD_cons_succ]; exact ih j

/-- Concatenating the string chunks of the fallback restores the full text. -/
theorem chunkString_concat (s : String) : concatStrings (chunkString s) = s := by
  unfold concatStrings chunkString
  rw [List.map_map]
  rw [show (String.data ∘ String.mk) = @id (List Char) from rfl, List.map_id,
    chunk10_flatten]

/-! ## Claim C10 — key-facts retention under document removal -/

/-- C10: for every document name `D`, `remove_document_extraction(D)` keeps a
key-facts entry iff it is a dict whose `source` differs from `D` (an absent
`source`, being `None`, differs from any string), and every key fact stored
as a plain string is removed regardless of its origin. -/
theorem remove_key_facts_spec (data : GraphData) (doc : String) :
    (∀ f : KeyFact,
      f ∈ (remove_document_extraction data doc).key_facts ↔
        (f ∈ data.key_facts ∧ ∃ kvs, f = KeyFact.kdict kvs ∧
          ∀ v, jvGet kvs "source" = some v → v ≠ JValue.jstr doc)) ∧
    (∀ s : String, KeyFact.kstr s ∉ (remove_document_extraction data doc).key_facts) := by
  have hmain : ∀ f : KeyFact,
      f ∈ (remove_document_extraction data doc).key_facts ↔
        (f ∈ data.key_facts ∧ ∃ kvs, f = KeyFact.kdict kvs ∧
          ∀ v, jvGet kvs "source" = some v → v ≠ JValue.jstr doc) := by
    intro f
    show f ∈ data.key_facts.filter (fun f => kfKeep f doc) ↔ _
    rw [List.mem_filter]
    constructor
    · rintro ⟨hmem, hkeep⟩
      refine ⟨hmem, ?_⟩
      cases f with
      | kstr s => simp [kfKeep] at hkeep
      | kdict kvs =>
        refine ⟨kvs, rfl, ?_⟩
        intro v hv
        simp only [kfKeep, hv] at hkeep
        exact (jvNeStr_true_iff v doc).1 hkeep
    · rintro ⟨hmem, kvs, rfl, hsrc⟩
      refine ⟨hmem, ?_⟩
      simp only [kfKeep]
      cases hv : jvGet kvs "source" with
      | none => rfl
      | some v => exact (jvNeStr_true_iff v doc).2 (hsrc v hv)
  refine ⟨hmain, ?_⟩
  intro s hs
  rcases ((hmain (KeyFact.kstr s)).1 hs).2 with ⟨kvs, hk, -⟩
  exact KeyFact.noConfusion hk

/-! ## Claim C4 — heuristic conflict detection -/

/-- The two-claim example of the specification. -/
def c4ClaimA : ClaimR := ⟨"X", "A", "", "", "doc1"⟩

/-- The second claim of the example. -/
def c4ClaimB : ClaimR := ⟨"X", "B", "", "", "doc2"⟩

/-- The graph holding exactly the two example claims. -/
def c4Data : GraphData := { claims := [c4ClaimA, c4ClaimB] }

/-- C4: on `[{subject:"X", claim:"A", source:"doc1"}, {subject:"X",
claim:"B", source:"doc2"}]`, `detect_conflicts` (without an LLM client)
returns exactly one conflict, for subject "X" (stored normalised as "x"),
whose claim list contains both claims and whose sources contain both
documents; and any graph holding a single claim yields no conflicts. -/
theorem detect_conflicts_spec :
    ((detect_conflicts c4Data).length = 1 ∧
      ∀ cf ∈ detect_conflicts c4Data,
        cf.subject = claimSubjectNorm c4ClaimA ∧
        c4ClaimA ∈ cf.claims ∧ c4ClaimB ∈ cf.claims ∧
        "doc1" ∈ cf.sources ∧ "doc2" ∈ cf.sources) ∧
    (∀ (data : GraphData) (c : ClaimR), data.claims = [c] → detect_conflicts data = []) := by
  constructor
  · constructor
    · decide
    · decide
  · intro data c hc
    unfold detect_conflicts
    rw [hc]
    rfl

/-- Witness for C4 at a concrete single-claim graph. -/
theorem detect_conflicts_spec_witness :
    detect_conflicts { claims := [c4ClaimA] } = [] :=
  detect_conflicts_spec.2 { claims := [c4ClaimA] } c4ClaimA rfl

/-! ## Claim C9 — streaming fallback contract -/

/-- C9: `stream_manager_response` is total (it returns a finite fragment
list, never raising).  When the streaming channel fails outright
(no event was consumed) and the blocking call succeeds, the yields are
exactly the full text re-chunked into 10-character fragments whose
concatenation is that text, every fragment has at most 10 characters and
all but the last exactly 10; when the blocking fallback also fails the
generator yields exactly one fragment describing the failure.  For a
mid-stream failure the already-yielded fragments are followed by the same
fallback tail. -/
theorem stream_manager_response_spec (evs : List StreamEvent) (t e : String) :
    (stream_manager_response (.failAfter []) (.ok t) =
      (chunkString t).map DeltaV.vstr) ∧
    (concatStrings (chunkString t) = t) ∧
    (∀ c ∈ chunkString t, c.length ≤ 10) ∧
    (∀ i : Nat, i + 1 < (chunkString t).length → ((chunkString t).getD i "").length = 10) ∧
    (stream_manager_response (.failAfter []) (.error e) =
      [DeltaV.vstr ("Error generating response: " ++ e)]) ∧
    (stream_manager_response (.failAfter evs) (.ok t) =
      evs.flatMap eventYields ++ (chunkString t).map DeltaV.vstr) ∧
    (stream_manager_response (.failAfter evs) (.error e) =
      evs.flatMap eventYields ++ [DeltaV.vstr ("Error generating response: " ++ e)]) := by
  refine ⟨rfl, chunkString_concat t, ?_, ?_, rfl, rfl, rfl⟩
  · intro c hc
    unfold chunkString at hc
    rcases List.mem_map.1 hc with ⟨cs, hcs, rfl⟩
    simpa using chunk10_le t.data cs hcs
  · intro i hi
    unfold chunkString at hi ⊢
    rw [getD_map_mk]
    simpa using chunk10_full t.data i (by simpa using hi)

/-! ## Claim C5 — query decomposition is total and fails open -/

/-- Padding and truncating always yields exactly `n` entries. -/
theorem padTake_length (qs : List String) (q : String) (n : Nat) :
    (padTake qs q n).length = n := by
  unfold padTake
  simp only [List.length_take, List.length_append, List.length_replicate]
  omega

/-- C5: `decompose_query` always returns exactly `n` strings; when the
question is short (fewer than 6 words) — in particular when it additionally
has no multi-aspect indicator, fewer than two capitalised non-leading words
and fewer than 12 words — expansion is skipped and the result is `n` copies
of the question with `expanded = false`; and any completion-call failure or
any parse failure fails open to the same `n` copies with
`expanded = false` (and, being a total function, it never raises). -/
theorem decompose_query_spec :
    (∀ (llm : String → Option String) (parse : String → Option JValue)
        (q : String) (n : Nat) (force : Bool),
      (decompose_query llm parse q n force).1.length = n) ∧
    (∀ (llm : String → Option String) (parse : String → Option JValue)
        (q : String) (n : Nat),
      (splitWs q).length < 6 →
      (∀ ind ∈ multi_aspect_indicators, pyContains (pyLower q) ind = false) →
      (((splitWs q).drop 1).filter (fun w => w != "" && headIsUpper w)).length < 2 →
      (splitWs q).length < 12 →
      decompose_query llm parse q n false = (List.replicate n q, false)) ∧
    (∀ (llm : String → Option String) (parse : String → Option JValue)
        (q : String) (n : Nat) (force : Bool),
      (∀ p, llm p = none) →
      decompose_query llm parse q n force = (List.replicate n q, false)) ∧
    (∀ (llm : String → Option String) (parse : String → Option JValue)
        (q : String) (n : Nat) (force : Bool),
      (∀ s, parse s = none) →
      decompose_query llm parse q n force = (List.replicate n q, false)) := by
  refine ⟨?_, ?_, ?_, ?_⟩
  · intro llm parse q n force
    unfold decompose_query
    split
    · simp
    · cases hllm : llm (decomposePrompt n q) with
      | none => simp
      | some raw =>
        simp only []
        split
        · simp
        · split
          · split
            · simp only [List.length_map, List.length_take]
              omega
            · exact padTake_length _ _ _
          · split
            · simp
            · exact padTake_length _ _ _
  · intro llm parse q n h6 _ _ _
    have hgate : should_expand_query q = false := by
      unfold should_expand_query
      simp only [if_pos h6]
    unfold decompose_query
    rw [hgate]
    rfl
  · intro llm parse q n force hfail
    unfold decompose_query
    split
    · rfl
    · rw [hfail (decomposePrompt n q)]
  · intro llm parse q n force hfail
    unfold decompose_query
    split
    · rfl
    · cases hllm : llm (decomposePrompt n q) with
      | none => rfl
      | some raw =>
        simp only [hfail]

/-- Witness for C5 at concrete inputs: a short question with failing oracles
gives three copies of the question and `expanded = false`, of length 3. -/
theorem decompose_query_spec_witness :
    (decompose_query (fun _ => none) (fun _ => none) "Who did it?" 3 false).1.length = 3 ∧
    decompose_query (fun _ => none) (fun _ => none) "Who did it?" 3 false =
      (List.replicate 3 "Who did it?", false) :=
  ⟨decompose_query_spec.1 (fun _ => none) (fun _ => none) "Who did it?" 3 false,
   decompose_query_spec.2.1 (fun _ => none) (fun _ => none) "Who did it?" 3
     (by decide) (by decide) (by decide) (by decide)⟩

/-! ## Claim C6 — entity merge is idempotent (lemmas) -/

/-- A `none` result of `findLastIdx` means no element satisfies `p`. -/
theorem findLastIdx_none_iff (p : α → Bool) :
    ∀ l : List α, findLastIdx p l = none ↔ ∀ x ∈ l, p x = false := by
  intro l
  induction l with
  | nil => simp [findLastIdx]
  | cons x xs ih =>
    simp only [findLastIdx]
    cases h : findLastIdx p xs with
    | some i => simp only []; constructor
                · intro hc; exact absurd hc (by simp)
                · intro hall
                  have := (ih.2 (fun y hy => hall y (List.mem_cons_of_mem x hy)))
                  rw [this] at h; exact absurd h (by simp)
    | none =>
      simp only []
      constructor
      · intro hc
        by_cases hp : p x = true
        · rw [if_pos hp] at hc; exact absurd hc (by simp)
        · intro y hy
          rcases List.mem_cons.1 hy with rfl | hy
          · exact Bool.eq_false_iff.2 hp
          · exact ih.1 h y hy
      · intro hall
        rw [if_neg]
        rw [hall x (List.mem_cons_self x xs)]
        simp

/-- A found index is in range. -/
theorem findLastIdx_lt (p : α → Bool) :
    ∀ (l : List α) (i : Nat), findLastIdx p l = some i → i < l.length := by
  intro l
  induction l with
  | nil => intro i h; simp [findLastIdx] at h
  | cons x xs ih =>
    intro i h
    simp only [findLastIdx] at h
    cases hf : findLastIdx p xs with
    | some j =>
      rw [hf] at h
      simp only [Option.some.injEq] at h
      subst h
      exact Nat.succ_lt_succ (ih j hf)
    | none =>
      rw [hf] at h
      by_cases hp : p x = true
      · rw [if_pos hp] at h
        simp only [Option.some.injEq] at h
        subst h
        simp
      · rw [if_neg hp] at h
        exact absurd h (by simp)

/-- The element at a found index satisfies the predicate, for any default. -/
theorem findLastIdx_getD (p : α → Bool) :
    ∀ (l : List α) (i : Nat) (d : α), findLastIdx p l = some i → p (l.getD i d) = true := by
  intro l
  induction l with
  | nil => intro i d h; simp [findLastIdx] at h
  | cons x xs ih =>
    intro i d h
    simp only [findLastIdx] at h
    cases hf : findLastIdx p xs with
    | some j =>
      rw [hf] at h
      simp only [Option.some.injEq] at h
      subst h
      simpa using ih j d hf
    | none =>
      rw [hf] at h
      by_cases hp : p x = true
      · rw [if_pos hp] at h
        simp only [Option.some.injEq] at h
        subst h
        simpa using hp
      · rw [if_neg hp] at h
        exact absurd h (by simp)

/-- The element at a found index is a member, for any default. -/
theorem getD_mem_of_lt : ∀ (l : List α) (i : Nat) (d : α), i < l.length → l.getD i d ∈ l := by
  intro l
  induction l with
  | nil => intro i d h; simp at h
  | cons x xs ih =>
    intro i d h
    cases i with
    | zero => simp
    | succ j =>
      simp only [List.getD_cons_succ]
      exact List.mem_cons_of_mem x (ih j d (by simpa using Nat.lt_of_succ_lt_succ h))

/-- Defaults are irrelevant in range. -/
theorem getD_congr : ∀ (l : List α) (i : Nat) (d1 d2 : α), i < l.length →
    l.getD i d1 = l.getD i d2 := by
  intro l
  induction l with
  | nil => intro i d1 d2 h; simp at h
  | cons x xs ih =>
    intro i d1 d2 h
    cases i with
    | zero => rfl
    | succ j =>
      simp only [List.getD_cons_succ]
      exact ih j d1 d2 (by simpa using Nat.lt_of_succ_lt_succ h)

/-- Merging into an existing entity never changes its name, hence not its
normalised name. -/
theorem entNorm_mergeInto (e ne : Entity) : entNorm (mergeIntoEntity e ne) = entNorm e := rfl

/-- Setting a position to a value with the same normalised name leaves the
normalised-name list unchanged. -/
theorem map_entNorm_set : ∀ (l : List Entity) (i : Nat) (v : Entity),
    entNorm (l.getD i v) = entNorm v → (l.set i v).map entNorm = l.map entNorm := by
  intro l
  induction l with
  | nil => intro i v _; simp
  | cons x xs ih =>
    intro i v h
    cases i with
    | zero =>
      simp only [List.getD_cons_zero] at h
      simp [List.set, h]
    | succ j =>
      simp only [List.getD_cons_succ] at h
      simp [List.set, ih j v h]

/-- The normalised names present after one merge step: unchanged when the
new entity's normalised name is already present, extended by it otherwise. -/
theorem mergeEntityStep_map (acc : List Entity) (ne : Entity) :
    (mergeEntityStep acc ne).map entNorm =
      if entNorm ne ∈ acc.map entNorm then acc.map entNorm
      else acc.map entNorm ++ [entNorm ne] := by
  unfold mergeEntityStep
  cases hf : findLastIdx (fun e => entNorm e == entNorm ne) acc with
  | none =>
    have hall := (findLastIdx_none_iff _ acc).1 hf
    have hnotmem : entNorm ne ∉ acc.map entNorm := by
      intro hmem
      rcases List.mem_map.1 hmem with ⟨e, he, heq⟩
      have hfalse := hall e he
      rw [heq] at hfalse
      simp at hfalse
    rw [if_neg hnotmem]
    simp
  | some idx =>
    have hlt := findLastIdx_lt _ acc idx hf
    have hp := findLastIdx_getD _ acc idx ne hf
    rw [beq_iff_eq] at hp
    have hmem : entNorm ne ∈ acc.map entNorm := by
      rw [← hp]
      exact List.mem_map_of_mem entNorm (getD_mem_of_lt acc idx ne hlt)
    rw [if_pos hmem]
    apply map_entNorm_set
    rw [entNorm_mergeInto]
    rw [getD_congr acc idx _ ne hlt, hp]

/-- Length after one merge step. -/
theorem mergeEntityStep_length (acc : List Entity) (ne : Entity) :
    (mergeEntityStep acc ne).length =
      if entNorm ne ∈ acc.map entNorm then acc.length else acc.length + 1 := by
  unfold mergeEntityStep
  cases hf : findLastIdx (fun e => entNorm e == entNorm ne) acc with
  | none =>
    have hall := (findLastIdx_none_iff _ acc).1 hf
    have hnotmem : entNorm ne ∉ acc.map entNorm := by
      intro hmem
      rcases List.mem_map.1 hmem with ⟨e, he, heq⟩
      have hfalse := hall e he
      rw [heq] at hfalse
      simp at hfalse
    rw [if_neg hnotmem]
    simp
  | some idx =>
    have hlt := findLastIdx_lt _ acc idx hf
    have hp := findLastIdx_getD _ acc idx ne hf
    rw [beq_iff_eq] at hp
    have hmem : entNorm ne ∈ acc.map entNorm := by
      rw [← hp]
      exact List.mem_map_of_mem entNorm (getD_mem_of_lt acc idx ne hlt)
    rw [if_pos hmem]
    simp

/-- Normalised names only accumulate along the merge fold. -/
theorem mergeEntities_map_mono : ∀ (news : List Entity) (acc : List Entity) (x : String),
    x ∈ acc.map entNorm → x ∈ (mergeEntities acc news).map entNorm := by
  intro news
  induction news with
  | nil => intro acc x h; exact h
  | cons ne rest ih =>
    intro acc x h
    show x ∈ (mergeEntities (mergeEntityStep acc ne) rest).map entNorm
    apply ih
    rw [mergeEntityStep_map]
    split
    · exact h
    · exact List.mem_append_left _ h

/-- After merging, every new entity's normalised name is present. -/
theorem mergeEntities_mem_norm : ∀ (news : List Entity) (acc : List Entity) (ne : Entity),
    ne ∈ news → entNorm ne ∈ (mergeEntities acc news).map entNorm := by
  intro news
  induction news with
  | nil => intro acc ne h; simp at h
  | cons hd rest ih =>
    intro acc ne h
    rcases List.mem_cons.1 h with rfl | h
    · show entNorm ne ∈ (mergeEntities (mergeEntityStep acc ne) rest).map entNorm
      apply mergeEntities_map_mono
      rw [mergeEntityStep_map]
      split
      · assumption
      · exact List.mem_append_right _ (by simp)
    · exact ih (mergeEntityStep acc hd) ne h

/-- Merging entities whose normalised names are all already present changes
neither the length nor the normalised-name list. -/
theorem mergeEntities_stable : ∀ (news : List Entity) (acc : List Entity),
    (∀ ne ∈ news, entNorm ne ∈ acc.map entNorm) →
    (mergeEntities acc news).length = acc.length ∧
      (mergeEntities acc news).map entNorm = acc.map entNorm := by
  intro news
  induction news with
  | nil => intro acc _; exact ⟨rfl, rfl⟩
  | cons ne rest ih =>
    intro acc hall
    have hne := hall ne (List.mem_cons_self ne rest)
    have hstepmap : (mergeEntityStep acc ne).map entNorm = acc.map entNorm := by
      rw [mergeEntityStep_map, if_pos hne]
    have hsteplen : (mergeEntityStep acc ne).length = acc.length := by
      rw [mergeEntityStep_length, if_pos hne]
    have hrest : ∀ x ∈ rest, entNorm x ∈ (mergeEntityStep acc ne).map entNorm := by
      intro x hx
      rw [hstepmap]
      exact hall x (List.mem_cons_of_mem ne hx)
    have := ih (mergeEntityStep acc ne) hrest
    exact ⟨this.1.trans hsteplen, this.2.trans hstepmap⟩

/-- C6: merging the same document extraction a second time leaves the entity
list at the same length — repetition causes no duplicate growth. -/
theorem merge_extraction_idempotent_entities (G : GraphData) (ext : Extraction)
    (doc : String) :
    ((merge_extraction (merge_extraction G ext doc) ext doc).entities).length
      = ((merge_extraction G ext doc).entities).length := by
  show (mergeEntities (mergeEntities G.entities ext.entities) ext.entities).length
      = (mergeEntities G.entities ext.entities).length
  exact (mergeEntities_stable ext.entities (mergeEntities G.entities ext.entities)
    (fun ne hne => mergeEntities_mem_norm ext.entities G.entities ne hne)).1

/-! ## Claim C3 — merge/remove round-trip

The round-trip fails when the incoming extraction shares an entity name with
the existing graph: the merge mutates the existing entity in place (mention
union, source promoted to a list, longer description kept) and removal
filters only on `source == doc`, so the mutated entity survives with its
polluted fields.  The claim holds once the incoming entity names are
disjoint from the existing ones and the document is genuinely new. -/

/-- Graph with one entity named Bob from doc1, used by the counterexample. -/
def c3Graph : GraphData :=
  { documents := ["doc1"],
    entities := [⟨"Bob", "Person", "", [], .s "doc1"⟩] }

/-- Extraction of doc2 also naming Bob, used by the counterexample. -/
def c3Ext : Extraction :=
  { entities := [⟨"Bob", "Person", "described", [], .s "doc2"⟩] }

/-- Counterexample to C3 as stated: "doc2" is not yet in the graph, yet
removing it right after merging its extraction does not restore the entity
list — the pre-existing doc1 entity keeps the merged description and the
promoted source list. -/
theorem c3_counterexample :
    "doc2" ∉ c3Graph.documents ∧
    (remove_document_extraction (merge_extraction c3Graph c3Ext "doc2") "doc2").entities
      ≠ c3Graph.entities := by
  decide

/-- Propositional reading of the entity-removal predicate. -/
theorem srcNeqStr_true_iff (sv : SrcV) (doc : String) :
    srcNeqStr sv doc = true ↔ sv ≠ SrcV.s doc := by
  cases sv <;> simp [srcNeqStr]

/-- Merging a string source with itself is the identity. -/
theorem mergeSourceVal_same (d : String) : mergeSourceVal (SrcV.s d) (SrcV.s d) = SrcV.s d := by
  simp [mergeSourceVal]

/-- Appending lists on the left shifts a found index. -/
theorem findLastIdx_append_some (p : α → Bool) :
    ∀ (A T : List α) (i : Nat), findLastIdx p T = some i →
      findLastIdx p (A ++ T) = some (A.length + i) := by
  intro A
  induction A with
  | nil => intro T i h; simpa using h
  | cons a A ih =>
    intro T i h
    have hrec := ih T i h
    show (match findLastIdx p (A ++ T) with
          | some j => some (j + 1)
          | none => if p a then some 0 else none) = some ((a :: A).length + i)
    rw [hrec]
    simp only [Option.some.injEq, List.length_cons]
    omega

/-- No find in either part means no find in the append. -/
theorem findLastIdx_append_none (p : α → Bool) :
    ∀ (A T : List α), (∀ a ∈ A, p a = false) → findLastIdx p T = none →
      findLastIdx p (A ++ T) = none := by
  intro A
  induction A with
  | nil => intro T _ h; simpa using h
  | cons a A ih =>
    intro T hA hT
    have hrec : findLastIdx p (A ++ T) = none :=
      ih T (fun x hx => hA x (List.mem_cons_of_mem a hx)) hT
    show (match findLastIdx p (A ++ T) with
          | some j => some (j + 1)
          | none => if p a then some 0 else none) = none
    rw [hrec, hA a (List.mem_cons_self a A)]
    simp

/-- Setting past the left part sets inside the right part. -/
theorem set_append_shift : ∀ (A t : List α) (i : Nat) (v : α),
    (A ++ t).set (A.length + i) v = A ++ t.set i v := by
  intro A
  induction A with
  | nil => intro t i v; simp
  | cons a A ih =>
    intro t i v
    simp only [List.cons_append, List.length_cons]
    have h1 : A.length + 1 + i = (A.length + i) + 1 := by omega
    rw [h1, List.set_cons_succ, ih]

/-- Reading past the left part reads inside the right part. -/
theorem getD_append_shift : ∀ (A t : List α) (i : Nat) (d : α),
    (A ++ t).getD (A.length + i) d = t.getD i d := by
  intro A
  induction A with
  | nil => intro t i d; simp
  | cons a A ih =>
    intro t i d
    simp only [List.cons_append, List.length_cons]
    have h1 : A.length + 1 + i = (A.length + i) + 1 := by omega
    rw [h1]
    simpa using ih t i d

/-- Merging entities whose normalised names avoid the existing prefix `A`
only touches the tail: the result is `A` followed by entities all sourced
from the merged document. -/
theorem mergeEntities_disjoint_tail (doc : String) :
    ∀ (news A t : List Entity),
      (∀ ne ∈ news, ne.source = SrcV.s doc) →
      (∀ ne ∈ news, ∀ a ∈ A, entNorm ne ≠ entNorm a) →
      (∀ e ∈ t, e.source = SrcV.s doc) →
      ∃ t', mergeEntities (A ++ t) news = A ++ t' ∧
        ∀ e ∈ t', e.source = SrcV.s doc := by
  intro news
  induction news with
  | nil => intro A t _ _ ht; exact ⟨t, rfl, ht⟩
  | cons ne rest ih =>
    intro A t hsrc hdisj ht
    have hA : ∀ a ∈ A, (fun e => entNorm e == entNorm ne) a = false := by
      intro a ha
      simp only [beq_eq_false_iff_ne]
      exact fun h => hdisj ne (List.mem_cons_self ne rest) a ha h.symm
    have hsrcRest : ∀ x ∈ rest, x.source = SrcV.s doc :=
      fun x hx => hsrc x (List.mem_cons_of_mem ne hx)
    have hdisjRest : ∀ x ∈ rest, ∀ a ∈ A, entNorm x ≠ entNorm a :=
      fun x hx => hdisj x (List.mem_cons_of_mem ne hx)
    show ∃ t', mergeEntities (mergeEntityStep (A ++ t) ne) rest = A ++ t' ∧ _
    cases hf : findLastIdx (fun e => entNorm e == entNorm ne) t with
    | none =>
      have hstep : mergeEntityStep (A ++ t) ne = A ++ (t ++ [ne]) := by
        unfold mergeEntityStep
        rw [findLastIdx_append_none _ A t hA hf]
        show (A ++ t) ++ [ne] = A ++ (t ++ [ne])
        rw [List.append_assoc]
      rw [hstep]
      refine ih A (t ++ [ne]) hsrcRest hdisjRest ?_
      intro e he
      rcases List.mem_append.1 he with he | he
      · exact ht e he
      · rcases List.mem_singleton.1 he with rfl
        exact hsrc e (List.mem_cons_self _ _)
    | some i =>
      have hlt := findLastIdx_lt _ t i hf
      have hgetD : (A ++ t).getD (A.length + i) ne = t.getD i ne := getD_append_shift A t i ne
      have hsrcGet : (t.getD i ne).source = SrcV.s doc :=
        ht _ (getD_mem_of_lt t i ne hlt)
      have hstep : mergeEntityStep (A ++ t) ne =
          A ++ t.set i (mergeIntoEntity (t.getD i ne) ne) := by
        unfold mergeEntityStep
        rw [findLastIdx_append_some _ A t i hf]
        show (A ++ t).set (A.length + i) (mergeIntoEntity ((A ++ t).getD (A.length + i) ne) ne)
            = A ++ t.set i (mergeIntoEntity (t.getD i ne) ne)
        rw [hgetD, set_append_shift]
      rw [hstep]
      refine ih A (t.set i (mergeIntoEntity (t.getD i ne) ne)) hsrcRest hdisjRest ?_
      intro e he
      rcases List.mem_or_eq_of_mem_set he with he | rfl
      · exact ht e he
      · show (mergeIntoEntity (t.getD i ne) ne).source = SrcV.s doc
        unfold mergeIntoEntity
        simp only []
        rw [hsrcGet, hsrc ne (List.mem_cons_self ne rest), mergeSourceVal_same]

/-- C3 (amended): the round-trip holds provided the merged document is new,
its extraction's entity names are disjoint (after normalisation) from the
graph's, every extracted item is tagged with the document as source, and no
pre-existing item is already sourced from it: then removing the document
after merging restores entities, claims and events, clears conflicts, and
the document contributes nothing to any list. -/
theorem merge_remove_roundtrip (G : GraphData) (ext : Extraction) (doc : String)
    (hdoc : doc ∉ G.documents)
    (hdisj : ∀ ne ∈ ext.entities, ∀ a ∈ G.entities, entNorm ne ≠ entNorm a)
    (hExtE : ∀ ne ∈ ext.entities, ne.source = SrcV.s doc)
    (hExtC : ∀ c ∈ ext.claims, c.source = doc)
    (hExtEv : ∀ ev ∈ ext.events, ev.source = doc)
    (hGE : ∀ e ∈ G.entities, e.source ≠ SrcV.s doc)
    (hGC : ∀ c ∈ G.claims, c.source ≠ doc)
    (hGEv : ∀ ev ∈ G.events, ev.source ≠ doc) :
    (remove_document_extraction (merge_extraction G ext doc) doc).entities = G.entities ∧
    (remove_document_extraction (merge_extraction G ext doc) doc).claims = G.claims ∧
    (remove_document_extraction (merge_extraction G ext doc) doc).events = G.events ∧
    (remove_document_extraction (merge_extraction G ext doc) doc).conflicts = [] ∧
    (remove_document_extraction (merge_extraction G ext doc) doc).documents = G.documents ∧
    doc ∉ (remove_document_extraction (merge_extraction G ext doc) doc).documents := by
  obtain ⟨t', hmerge, ht'⟩ :=
    mergeEntities_disjoint_tail doc ext.entities G.entities [] hExtE hdisj (by simp)
  rw [List.append_nil] at hmerge
  have hent : (remove_document_extraction (merge_extraction G ext doc) doc).entities
      = G.entities := by
    show ((merge_extraction G ext doc).entities).filter
        (fun e => srcNeqStr e.source doc) = G.entities
    show (mergeEntities G.entities ext.entities).filter
        (fun e => srcNeqStr e.source doc) = G.entities
    rw [hmerge, List.filter_append]
    have h1 : G.entities.filter (fun e => srcNeqStr e.source doc) = G.entities :=
      List.filter_eq_self.2 (fun a ha => (srcNeqStr_true_iff _ _).2 (hGE a ha))
    have h2 : t'.filter (fun e => srcNeqStr e.source doc) = [] := by
      rw [List.filter_eq_nil_iff]
      intro a ha
      rw [srcNeqStr_true_iff]
      simp [ht' a ha]
    rw [h1, h2, List.append_nil]
  have hclaims : (remove_document_extraction (merge_extraction G ext doc) doc).claims
      = G.claims := by
    show (G.claims ++ ext.claims).filter (fun c => c.source != doc) = G.claims
    rw [List.filter_append]
    have h1 : G.claims.filter (fun c => c.source != doc) = G.claims :=
      List.filter_eq_self.2 (fun a ha => bne_iff_ne.2 (hGC a ha))
    have h2 : ext.claims.filter (fun c => c.source != doc) = [] := by
      rw [List.filter_eq_nil_iff]
      intro a ha
      simp [hExtC a ha]
    rw [h1, h2, List.append_nil]
  have hevents : (remove_document_extraction (merge_extraction G ext doc) doc).events
      = G.events := by
    show (G.events ++ ext.events).filter (fun e => e.source != doc) = G.events
    rw [List.filter_append]
    have h1 : G.events.filter (fun e => e.source != doc) = G.events :=
      List.filter_eq_self.2 (fun a ha => bne_iff_ne.2 (hGEv a ha))
    have h2 : ext.events.filter (fun e => e.source != doc) = [] := by
      rw [List.filter_eq_nil_iff]
      intro a ha
      simp [hExtEv a ha]
    rw [h1, h2, List.append_nil]
  have hdocs : (remove_document_extraction (merge_extraction G ext doc) doc).documents
      = G.documents := by
    show (if doc ∈ (merge_extraction G ext doc).documents
          then (merge_extraction G ext doc).documents.erase doc
          else (merge_extraction G ext doc).documents) = G.documents
    have hm : (merge_extraction G ext doc).documents = G.documents ++ [doc] := by
      show (if doc ∈ G.documents then G.documents else G.documents ++ [doc])
          = G.documents ++ [doc]
      rw [if_neg hdoc]
    rw [hm, if_pos (List.mem_append_right _ (List.mem_singleton_self doc))]
    rw [List.erase_append_right _ hdoc, List.erase_cons_head]
    exact List.append_nil _
  exact ⟨hent, hclaims, hevents, rfl, hdocs, by rw [hdocs]; exact hdoc⟩

/-- Graph used by the round-trip witness. -/
def c3WGraph : GraphData :=
  { documents := ["doc1"],
    entities := [⟨"Bob", "Person", "", [], .s "doc1"⟩],
    claims := [⟨"Bob", "was here", "", "", "doc1"⟩],
    events := [⟨"2020", "meeting", [], "", "doc1"⟩] }

/-- Disjointly-named extraction used by the round-trip witness. -/
def c3WExt : Extraction :=
  { entities := [⟨"Carol", "Person", "", [], .s "doc2"⟩],
    claims := [⟨"Carol", "was there", "", "", "doc2"⟩],
    events := [⟨"2021", "call", [], "", "doc2"⟩] }

/-- Witness for the amended C3 at concrete inputs. -/
theorem merge_remove_roundtrip_witness :
    (remove_document_extraction (merge_extraction c3WGraph c3WExt "doc2") "doc2").entities
        = c3WGraph.entities ∧
    (remove_document_extraction (merge_extraction c3WGraph c3WExt "doc2") "doc2").claims
        = c3WGraph.claims ∧
    (remove_document_extraction (merge_extraction c3WGraph c3WExt "doc2") "doc2").events
        = c3WGraph.events ∧
    (remove_document_extraction (merge_extraction c3WGraph c3WExt "doc2") "doc2").conflicts
        = [] := by
  have h := merge_remove_roundtrip c3WGraph c3WExt "doc2"
    (by decide) (by decide) (by decide) (by decide) (by decide)
    (by decide) (by decide) (by decide)
  exact ⟨h.1, h.2.1, h.2.2.1, h.2.2.2.1⟩

/-! ## Claim C2 — routing determinism on the reference questions -/

/-- A list with a member is not empty (Boolean form). -/
theorem isEmpty_false_of_ne {l : List α} (h : l ≠ []) : l.isEmpty = false := by
  cases l with
  | nil => exact absurd rfl h
  | cons a t => rfl

/-- One matching step never empties the accumulator. -/
theorem fmeInner_ne (name : String) (ms : List Entity) (ent : Entity) (h : ms ≠ []) :
    fmeInner name ms ent ≠ [] := by
  unfold fmeInner
  split
  · split
    · exact h
    · simp
  · exact h

/-- The inner entity loop never empties the accumulator. -/
theorem fme_inner_ne (name : String) :
    ∀ (es : List Entity) (ms : List Entity), ms ≠ [] →
      es.foldl (fmeInner name) ms ≠ [] := by
  intro es
  induction es with
  | nil => intro ms h; exact h
  | cons e' es' ih => intro ms h; exact ih _ (fmeInner_ne name ms e' h)

/-- The inner entity loop produces a non-empty accumulator as soon as some
entity matches the name. -/
theorem fme_inner_creates (name : String) :
    ∀ (es : List Entity) (ms : List Entity) (ent : Entity), ent ∈ es →
      entityMatchCond name ent = true → es.foldl (fmeInner name) ms ≠ [] := by
  intro es
  induction es with
  | nil => intro ms ent h; intro _; simp at h
  | cons e' es' ih =>
    intro ms ent hmem hc
    rcases List.mem_cons.1 hmem with rfl | hmem
    · rw [List.foldl_cons]
      apply fme_inner_ne
      unfold fmeInner
      rw [hc]
      simp only [if_true]
      split
      · next h => exact List.ne_nil_of_mem h
      · simp
    · exact ih (fmeInner name ms e') ent hmem hc

/-- The outer name loop never empties the accumulator. -/
theorem fme_outer_ne (entities : List Entity) :
    ∀ (names : List String) (ms : List Entity), ms ≠ [] →
      names.foldl (fun ms nm => entities.foldl (fmeInner nm) ms) ms ≠ [] := by
  intro names
  induction names with
  | nil => intro ms h; exact h
  | cons nm rest ih => intro ms h; exact ih _ (fme_inner_ne nm entities ms h)

/-- Any (name, entity) pair satisfying the match condition makes
`_find_matching_entities` return a non-empty match list. -/
theorem find_matching_nonempty (names : List String) (entities : List Entity)
    (name : String) (ent : Entity) (hn : name ∈ names) (he : ent ∈ entities)
    (hc : entityMatchCond name ent = true) :
    _find_matching_entities names entities ≠ [] := by
  unfold _find_matching_entities
  have aux : ∀ (nms : List String) (ms : List Entity), name ∈ nms →
      nms.foldl (fun ms nm => entities.foldl (fmeInner nm) ms) ms ≠ [] := by
    intro nms
    induction nms with
    | nil => intro ms h; simp at h
    | cons nm rest ih =>
      intro ms hmem
      rcases List.mem_cons.1 hmem with rfl | hmem
      · exact fme_outer_ne entities rest _ (fme_inner_creates name entities ms ent he hc)
      · exact ih (entities.foldl (fmeInner nm) ms) hmem
  exact aux names [] hn

/-- Reduction of `classify_query` along the entity-lookup branch when a
matching entity exists. -/
theorem classify_query_entity_hit (q : String) (d : GraphData)
    (h1 : _is_comprehensive_query q = false) (h2 : _is_entity_lookup_query q = true)
    (h3 : d.entities ≠ []) (h4 : _extract_potential_names q ≠ [])
    (h5 : _find_matching_entities (_extract_potential_names q) d.entities ≠ []) :
    classify_query q d = "EXHAUSTIVE" := by
  unfold classify_query
  simp only [h1, h2, isEmpty_false_of_ne h3, isEmpty_false_of_ne h4,
    isEmpty_false_of_ne h5, Bool.not_false, if_true]
  simp

/-- C2: on the reference questions the router is deterministic:
"List all people mentioned in the documents" is comprehensive, hence
EXHAUSTIVE with category `entities`, for every graph state; "Why did the
suspect leave the building at midnight?" is SPECIFIC for every graph state;
and "Who is Amanda Lynn Plasse?" is EXHAUSTIVE whenever the graph knows an
entity named "Amanda", which matches via the word-subset rule
({amanda} ⊆ {amanda, lynn, plasse}). -/
theorem classify_reference_questions :
    (∀ d : GraphData,
      classify_query "List all people mentioned in the documents" d = "EXHAUSTIVE" ∧
      get_query_category "List all people mentioned in the documents" d = "entities") ∧
    (∀ d : GraphData,
      classify_query "Why did the suspect leave the building at midnight?" d = "SPECIFIC") ∧
    (∀ (d : GraphData) (e : Entity), e ∈ d.entities → e.name = "Amanda" →
      classify_query "Who is Amanda Lynn Plasse?" d = "EXHAUSTIVE" ∧
      entityMatchCond "Amanda Lynn Plasse" e = true) := by
  refine ⟨fun d => ⟨rfl, rfl⟩, fun d => rfl, ?_⟩
  intro d e he hname
  have hc : entityMatchCond "Amanda Lynn Plasse" e = true := by
    unfold entityMatchCond
    rw [hname]
    decide
  have hnames : "Amanda Lynn Plasse" ∈
      _extract_potential_names "Who is Amanda Lynn Plasse?" := by decide
  refine ⟨?_, hc⟩
  refine classify_query_entity_hit _ d (by decide) (by decide)
    (List.ne_nil_of_mem he) (by decide) ?_
  exact find_matching_nonempty _ d.entities "Amanda Lynn Plasse" e hnames he hc

/-- Witness for C2 at a concrete graph holding the entity "Amanda". -/
theorem classify_reference_questions_witness :
    classify_query "Who is Amanda Lynn Plasse?"
        { entities := [⟨"Amanda", "Person", "", [], .s "doc1"⟩] } = "EXHAUSTIVE" ∧
    classify_query "List all people mentioned in the documents"
        { entities := [⟨"Amanda", "Person", "", [], .s "doc1"⟩] } = "EXHAUSTIVE" :=
  ⟨(classify_reference_questions.2.2
      { entities := [⟨"Amanda", "Person", "", [], .s "doc1"⟩] }
      ⟨"Amanda", "Person", "", [], .s "doc1"⟩ (by decide) rfl).1,
   (classify_reference_questions.1
      { entities := [⟨"Amanda", "Person", "", [], .s "doc1"⟩] }).1⟩

/-! ## Claim C7 — anti-hallucination miss response

`_answer_entities_query` does build the miss response, but
router.py:469 applies `[:15]` to the *joined string* of person-entity
lines instead of the entity list, so the "candidate alternatives" are cut
to 15 characters — the full names are not listed.  The spec (and the
surrounding code: `mentions[:5]`, `related_claims[:10]`, `key_facts[:20]`
all slice lists) makes the intent clear, so this is a code bug. -/

/-- Graph with a single person entity, for the truncation bug exhibit. -/
def c7Data : GraphData :=
  { documents := ["doc1"],
    entities := [⟨"Amanda Lynn Plasse", "Person", "", [], .s "doc1"⟩] }

set_option maxRecDepth 100000 in
/-- C7 at the failing input: the question "Who is Zorro?" extracts names
("Who", "Zorro") matching no entity, so the miss branch runs and succeeds,
but the response lists only the first 15 characters of the person list
("- **Amanda Lyn" appears) and never contains the full name
"Amanda Lynn Plasse" — the promised candidate alternatives are not
listed. -/
theorem answer_entities_truncation_bug :
    (_answer_entities_query "Who is Zorro?" c7Data).2 = true ∧
    pyContains (_answer_entities_query "Who is Zorro?" c7Data).1 "No Information Found" = true ∧
    pyContains (_answer_entities_query "Who is Zorro?" c7Data).1 "- **Amanda Lyn" = true ∧
    pyContains (_answer_entities_query "Who is Zorro?" c7Data).1 "Amanda Lynn Plasse" = false := by
  decide

/-! ## Claims C1 and C8 — orchestration: containment and progress order -/

/-- Unrolling a fold that appends one output and a block of events per
index. -/
theorem foldl_pair_append {α β : Type} (f : Nat → α) (g : Nat → List β) :
    ∀ (is : List Nat) (a : List α) (b : List β),
      is.foldl (fun acc i => (acc.1 ++ [f i], acc.2 ++ g i)) (a, b)
        = (a ++ is.map f, b ++ is.flatMap g) := by
  intro is
  induction is with
  | nil => intro a b; simp
  | cons i rest ih =>
    intro a b
    rw [List.foldl_cons, ih]
    simp [List.append_assoc]

/-- The worker outputs of a run are exactly the per-index outputs, in
order. -/
theorem coa_outputs_eq (llm : String → Option String) (parse : String → Option JValue)
    (ask : String → String) (wp mp q : String) (n : Nat) (hp : Bool)
    (ch : Option (List Msg)) (ue : Bool) :
    (coa_report_with_progress llm parse ask wp mp q n hp ch ue).1.1
      = (List.range n).map (coaWorkerOutputAt llm parse ask wp q n ch ue) := by
  show (coaLoop llm parse ask wp q n hp ch ue).1 = _
  unfold coaLoop
  rw [foldl_pair_append (coaWorkerOutputAt llm parse ask wp q n ch ue)
    (coaWorkerEventsAt llm parse wp q n hp ch ue)]
  exact List.nil_append _

/-- The trace of a run is the expansion notification (when enabled and a
callback is installed) followed by each worker's events in pass order. -/
theorem coa_trace_eq (llm : String → Option String) (parse : String → Option JValue)
    (ask : String → String) (wp mp q : String) (n : Nat) (hp : Bool)
    (ch : Option (List Msg)) (ue : Bool) :
    (coa_report_with_progress llm parse ask wp mp q n hp ch ue).2
      = coaTrace0 n hp ue ++
        (List.range n).flatMap (coaWorkerEventsAt llm parse wp q n hp ch ue) := by
  show (coaLoop llm parse ask wp q n hp ch ue).2 = _
  unfold coaLoop
  rw [foldl_pair_append (coaWorkerOutputAt llm parse ask wp q n ch ue)
    (coaWorkerEventsAt llm parse wp q n hp ch ue)]

/-- C1: for every run (with expansion enabled), the orchestrator returns
exactly `n_workers` worker outputs (and, being a total function, never
raises); and whenever worker `i`'s search call returns text that does not
parse as JSON, that worker's entry degrades to
`{raw_text, _search_query}` — the error is contained to that worker. -/
theorem coa_worker_error_containment (llm : String → Option String)
    (parse : String → Option JValue) (ask : String → String) (wp mp q : String)
    (n : Nat) (hp : Bool) (ch : Option (List Msg)) :
    ((coa_report_with_progress llm parse ask wp mp q n hp ch true).1.1).length = n ∧
    ∀ i : Nat, i < n →
      parse (ask (coaWorkerInputAt llm parse wp q n ch true i)) = none →
      ((coa_report_with_progress llm parse ask wp mp q n hp ch true).1.1)[i]?
        = some (JValue.jobj
            [("raw_text", .jstr (ask (coaWorkerInputAt llm parse wp q n ch true i))),
             ("_search_query", .jstr (coaWorkerQueryAt llm parse q n true i))]) := by
  rw [coa_outputs_eq]
  constructor
  · simp
  · intro i hi hparse
    rw [List.getElem?_map, List.getElem?_range hi]
    simp only [Option.map_some']
    unfold coaWorkerOutputAt coaWorkerOutput
    rw [hparse]

/-- Witness for C1: one worker, failing parse, concrete strings; the single
output is the degraded record and the batch still has one entry. -/
theorem coa_worker_error_containment_witness :
    ((coa_report_with_progress (fun _ => none) (fun _ => none) (fun _ => "oops")
        "W" "M" "test" 1 false none true).1.1).length = 1 ∧
    ((coa_report_with_progress (fun _ => none) (fun _ => none) (fun _ => "oops")
        "W" "M" "test" 1 false none true).1.1)[0]?
      = some (JValue.jobj [("raw_text", .jstr "oops"), ("_search_query", .jstr "test")]) := by
  refine ⟨(coa_worker_error_containment (fun _ => none) (fun _ => none) (fun _ => "oops")
    "W" "M" "test" 1 false none).1, ?_⟩
  exact (coa_worker_error_containment (fun _ => none) (fun _ => none) (fun _ => "oops")
    "W" "M" "test" 1 false none).2 0 (by decide) rfl

/-- The `current` fields of the progress events of a trace, in order. -/
def progressCurrents (trace : List TraceEv) : List Nat :=
  trace.filterMap (fun ev => match ev with
    | .progress _ c _ => some c
    | .workerCall _ => none)

/-- The progress indices contributed by the worker loop. -/
theorem progressCurrents_flatMap (llm : String → Option String)
    (parse : String → Option JValue) (wp q : String) (n : Nat)
    (ch : Option (List Msg)) :
    ∀ l : List Nat,
      progressCurrents (l.flatMap (coaWorkerEventsAt llm parse wp q n true ch true))
        = l.map Nat.succ := by
  intro l
  induction l with
  | nil => rfl
  | cons i rest ih =>
    simp only [List.flatMap_cons, List.map_cons]
    unfold progressCurrents at ih ⊢
    rw [List.filterMap_append, ih]
    rfl

/-- C8 (amended): with a progress callback installed and expansion enabled,
the trace is exactly one notification before decomposition (current 0)
followed, for each worker in pass order, by its notification immediately
*before* its search call — not after completion; each worker notification
carries current `i+1` with total `n_workers` and, when expansion produced a
distinct focus, a status embedding that focus truncated to 40 characters
(`workerStatus`); the sequence of progress currents is exactly
`0, 1, …, n_workers`, in particular non-decreasing. -/
theorem coa_progress_order (llm : String → Option String)
    (parse : String → Option JValue) (ask : String → String) (wp mp q : String)
    (n : Nat) (ch : Option (List Msg)) :
    (coa_report_with_progress llm parse ask wp mp q n true ch true).2
      = TraceEv.progress "Analyzing question and generating search strategies..." 0 n
          :: (List.range n).flatMap (coaWorkerEventsAt llm parse wp q n true ch true) ∧
    (∀ i : Nat, coaWorkerEventsAt llm parse wp q n true ch true i
      = [TraceEv.progress
           (workerStatus (coaSearchQueries llm parse q n true).2
             (coaWorkerQueryAt llm parse q n true i) q i) (i + 1) n,
         TraceEv.workerCall (coaWorkerInputAt llm parse wp q n ch true i)]) ∧
    progressCurrents (coa_report_with_progress llm parse ask wp mp q n true ch true).2
      = List.range (n + 1) ∧
    List.Pairwise (· ≤ ·)
      (progressCurrents (coa_report_with_progress llm parse ask wp mp q n true ch true).2) := by
  have htr := coa_trace_eq llm parse ask wp mp q n true ch true
  have hcur : progressCurrents (coa_report_with_progress llm parse ask wp mp q n true ch true).2
      = List.range (n + 1) := by
    rw [htr]
    show progressCurrents
        (TraceEv.progress "Analyzing question and generating search strategies..." 0 n
          :: (List.range n).flatMap (coaWorkerEventsAt llm parse wp q n true ch true))
      = List.range (n + 1)
    unfold progressCurrents
    rw [List.filterMap_cons]
    show 0 :: progressCurrents
        ((List.range n).flatMap (coaWorkerEventsAt llm parse wp q n true ch true))
      = List.range (n + 1)
    rw [progressCurrents_flatMap llm parse wp q n ch (List.range n)]
    exact (List.range_succ_eq_map n).symm
  refine ⟨by rw [htr]; rfl, fun i => rfl, hcur, ?_⟩
  rw [hcur]
  exact (List.pairwise_lt_range (n + 1)).imp Nat.le_of_lt

/-- The concrete run exhibiting the notification order. -/
def c8Run : (List JValue × String) × List TraceEv :=
  coa_report_with_progress (fun _ => none) (fun _ => none) (fun _ => "x")
    "W" "M" "test" 1 true none true

set_option maxRecDepth 100000 in
/-- Counterexample to C8 as stated: in a one-worker run with a callback,
the trace has exactly three events and worker 1's notification (index 1)
comes *before* worker 1's search call (index 2); no notification follows
the worker's completion, refuting "fires once after each worker
completes". -/
theorem c8_counterexample :
    c8Run.2.length = 3 ∧
    c8Run.2[1]? = some (TraceEv.progress "Worker 1 analyzing documents..." 1 1) ∧
    c8Run.2[2]? = some (TraceEv.workerCall (coaWorkerInput "W" "" "test" "test" 0 1)) := by
  decide

end CoaRag
